import Mathlib

/-!
# ExAM-agent: host inventory probe (`main.go`)

A shallow embedding of the Go program and the properties of its
data-collection pipeline.

Modelling conventions:

* a Go `string` is a Lean `String`; the only byte-level operation the program
  performs on strings is splitting at the one-byte separator `"\n"`, which
  never occurs inside a multi-byte UTF-8 sequence;
* a Go `error` is `Option GoError`, `none` being `nil`;
* a `uint64` is a `Nat`, reduced `% 2 ^ 64` at every conversion `uint64(_)`;
* a finite `float64` is the rational number it denotes; the conversion
  `float64(uint64)` rounds to 53 significant bits, ties to even;
* calls that leave the program (gopsutil providers, `encoding/json`,
  `os/exec`, the HTTP transport) are answered by an environment `Env`;
* `http.Post` is the redirect loop of the default client over the transport's
  answers, and `jsonMarshal` is what `encoding/json` writes for a `SystemInfo`;
* output is recorded as a list of `Event`s: what `fmt.Println` prints, each
  call of `http.Post`, and each request the client puts on the wire.
-/

namespace ExAM

/-! ## Unit conversion -/

/-- The number of low-order bits that do not fit in a 53-bit significand:
`0` below `2 ^ 53`, else one more than for `b / 2`. For a `uint64` the
recursion depth is at most `11`. -/
def float64Shift : Nat → Nat → Nat
  | 0, _ => 0
  | fuel + 1, b => if b < 2 ^ 53 then 0 else float64Shift fuel (b / 2) + 1

/-- Round `b` to a multiple of `2 ^ s`, to nearest, ties to the even multiple. -/
def roundToEven (s b : Nat) : Nat :=
  let q := b / 2 ^ s
  let r := b % 2 ^ s
  if 2 ^ s < 2 * r ∨ (2 ^ s = 2 * r ∧ q % 2 = 1) then (q + 1) * 2 ^ s else q * 2 ^ s

/-- The integer denoted by `float64(b)` for a `uint64` value `b`
(IEEE 754 round to nearest, ties to even, 53-bit significand). -/
def float64Value (b : Nat) : Nat := roundToEven (float64Shift 11 b) b

/-- The conversion `float64(b)` of a `uint64`. -/
def float64OfUint64 (b : Nat) : ℚ := (float64Value b : ℚ)

/-- The constant `gigabyte := float64(1024 * 1024 * 1024)`; `2 ^ 30` is a `float64`. -/
def gigabyte : ℚ := ((1024 * 1024 * 1024 : Nat) : ℚ)

/-- Function `bytesToGB`: `float64(bytes) / gigabyte`. Dividing a `float64` in
`[1, 2 ^ 64]` (or zero) by `2 ^ 30` only changes its exponent, so the
floating-point quotient is the exact quotient (`bytesToGB_isFloat64`). -/
def bytesToGB (bytes : Nat) : ℚ := float64OfUint64 bytes / gigabyte

/-- Function `math.Round`: the nearest integer, halves away from zero. -/
def mathRound (x : ℚ) : ℚ :=
  if 0 ≤ x then ((⌊x + 1 / 2⌋ : ℤ) : ℚ) else -((⌊-x + 1 / 2⌋ : ℤ) : ℚ)

/-- The conversion `uint64(x)` of a value that already is a `uint64`. -/
def uint64 (x : Nat) : Nat := x % 2 ^ 64

/-- The value `main` stores for a byte count:
`math.Round(bytesToGB(uint64(totalBytes)))`. -/
def reportedGB (totalBytes : Nat) : ℚ := mathRound (bytesToGB (uint64 totalBytes))

/-- The specification's conversion: `b` divided by `1024 ^ 3`, rounded to the
nearest integer, an exact half rounding up. -/
def specRoundedGB (b : Nat) : ℤ := ⌊(b : ℚ) / (1024 ^ 3 : ℚ) + 1 / 2⌋

/-- The rationals a finite `float64` can denote, zero or positive: a
significand of at most 53 bits times a power of two within the exponent range. -/
def IsFloat64 (x : ℚ) : Prop :=
  ∃ m : Nat, ∃ e : Int, m ≤ 2 ^ 53 ∧ -1074 ≤ e ∧ e ≤ 970 ∧ x = (m : ℚ) * (2 : ℚ) ^ e

/-- The second line of a text, without its line feed: what follows the first
line feed, up to the next one; empty when the text has no line feed. -/
def secondLine (s : String) : String :=
  String.mk (((s.data.dropWhile (fun c => c != '\n')).drop 1).takeWhile (fun c => c != '\n'))

/-! ## Data model -/

/-- A non-nil Go `error`, identified with the text `Error()` returns. -/
abbrev GoError := String

/-- Local shape of one CPU record (`type CPUInfo struct`). -/
structure CPUInfo where
  CPU : Int
  VendorID : String
  Family : String
  Model : String
  Stepping : Int
  PhysicalID : String
  CoreID : String
  Cores : Int
  ModelName : String
  Mhz : ℚ
  CacheSize : Int
  Flags : List String
  Microcode : String

/-- Local shape of the memory facts (`type MemoryInfo struct`). -/
structure MemoryInfo where
  Total : Nat

/-- Local shape of the disk facts (`type StorageInfo struct`). -/
structure StorageInfo where
  Total : Nat

/-- Local shape of the host facts (`type HostInfo struct`). -/
structure HostInfo where
  Os : String
  Version : String

/-- The reported record (`type SystemInfo struct`). -/
structure SystemInfo where
  CPUModel : String
  TotalMemoryGB : ℚ
  TotalStorageGB : ℚ
  ProductModel : String
  OS : String
  OSVersion : String
  SerialNumber : String
  Manufacturer : String

/-- A request the HTTP client puts on the wire: method, URL, and, when the
request carries the body, the body and its `Content-Type` header. Other
headers, and the headers of a request without body, are not modelled. -/
structure HttpRequest where
  Method : String
  URL : String
  ContentType : Option String
  Body : Option String
  deriving DecidableEq

/-- What the client and the program read of an `*http.Response`: the status
code, the status line, and the `Location` header (empty when absent). -/
structure HttpResponse where
  StatusCode : Nat
  Status : String
  Location : String

/-- An observable action of the program. -/
inductive Event where
  | stdout (text : String)
  | httpPost (url contentType body : String)
  | request (req : HttpRequest)
  deriving DecidableEq

/-- Whether an event is a call of `http.Post`. -/
def Event.isPost : Event → Bool
  | .httpPost _ _ _ => true
  | .stdout _ => false
  | .request _ => false

/-- The requests put on the wire, in order. -/
def wireRequests : List Event → List HttpRequest
  | [] => []
  | .request req :: rest => req :: wireRequests rest
  | _ :: rest => wireRequests rest

/-- Function `fmt.Println` of operands already formatted: blanks between them, a
newline at the end. -/
def println (operands : List String) : Event :=
  .stdout (String.intercalate " " operands ++ "\n")

/-- The answers of everything outside the program. `Data` is the type of the
values the gopsutil providers hand to `infoToString`. -/
structure Env (Data : Type) where
  /-- The call `cpu.Info()`. -/
  cpuInfo : Except GoError Data
  /-- The call `mem.VirtualMemory()`. -/
  virtualMemory : Except GoError Data
  /-- The call `disk.Usage(path)`. -/
  diskUsage : String → Except GoError Data
  /-- The call `host.Info()`. -/
  hostInfo : Except GoError Data
  /-- The call `json.MarshalIndent(info, lead, indent)`. -/
  marshalIndent : Data → String → String → Except GoError String
  /-- The call `json.Unmarshal` into a `[]CPUInfo`. -/
  unmarshalCPUInfo : String → Except GoError (List CPUInfo)
  /-- The call `json.Unmarshal` into a `MemoryInfo`. -/
  unmarshalMemoryInfo : String → Except GoError MemoryInfo
  /-- The call `json.Unmarshal` into a `StorageInfo`. -/
  unmarshalStorageInfo : String → Except GoError StorageInfo
  /-- The call `json.Unmarshal` into a `HostInfo`. -/
  unmarshalHostInfo : String → Except GoError HostInfo
  /-- Running `exec.Command(name, args...)` with stdout captured: the
  captured text when `cmd.Run()` returns `nil`. -/
  run : List String → Except GoError String
  /-- The call `json.Marshal` of a `SystemInfo`. -/
  marshal : SystemInfo → Except GoError String
  /-- The transport's answer to the request of the given index (`0` for the
  first) within one call of `http.Post`: a response, or the error of a
  request that got none. -/
  roundTrip : Nat → HttpRequest → Except GoError HttpResponse
  /-- The call `base.Parse(location)`: the URL a `Location` header denotes
  relative to the URL of the request it answers. -/
  resolveLocation : String → String → Except GoError String
  /-- The call `strconv.Quote`, the `%q` of error texts. -/
  quote : String → String

/-- The results of a function together with what it printed and sent. -/
structure Ret (α : Type) where
  val : α
  err : Option GoError
  out : List Event

/-! ## Library functions -/

/-- Cut a text at every occurrence of the separator, keeping empty pieces:
the text without separator is one piece, `n` separators give `n + 1` pieces. -/
def splitOnSep (sep : Char) : List Char → List (List Char)
  | [] => [[]]
  | c :: cs =>
    if c = sep then [] :: splitOnSep sep cs
    else
      match splitOnSep sep cs with
      | [] => [[c]]
      | l :: ls => (c :: l) :: ls

/-- Function `strings.Split(s, sep)` for a separator of one byte. -/
def stringsSplit (s : String) (sep : Char) : List String :=
  (splitOnSep sep s.data).map String.mk

/-- The lower-case hexadecimal digit of a value below sixteen. -/
def hexDigit (d : Nat) : Char :=
  if d < 10 then Char.ofNat (48 + d) else Char.ofNat (87 + d)

/-- The escape `\uXXXX` of a character below U+10000, as `encoding/json` writes it. -/
def unicodeEscape (c : Char) : List Char :=
  ['\\', 'u', hexDigit (c.toNat / 4096 % 16), hexDigit (c.toNat / 256 % 16),
    hexDigit (c.toNat / 16 % 16), hexDigit (c.toNat % 16)]

/-- How `encoding/json` writes one character of a string (`appendString` with
HTML escaping, as `json.Marshal` uses it): the quotation mark and the
backslash get a backslash; line feed, carriage return and tab their short
escapes; backspace and form feed theirs since Go 1.22 (`shortEscapes`) and a
`\u` escape before; the other control characters, `<`, `>`, `&`, U+2028 and
U+2029 a `\u` escape; every other character is copied. -/
def escapeChar (shortEscapes : Bool) (c : Char) : List Char :=
  if c = '\x22' ∨ c = '\\' then ['\\', c]
  else if c = '\n' then ['\\', 'n']
  else if c = '\r' then ['\\', 'r']
  else if c = '\t' then ['\\', 't']
  else if shortEscapes = true ∧ c = '\x08' then ['\\', 'b']
  else if shortEscapes = true ∧ c = '\x0c' then ['\\', 'f']
  else if c.toNat < 32 ∨ c = '<' ∨ c = '>' ∨ c = '&' ∨ c.toNat = 8232 ∨ c.toNat = 8233 then
    unicodeEscape c
  else [c]

/-- The escaped characters of a string, in order. -/
def escapeString (shortEscapes : Bool) : List Char → List Char
  | [] => []
  | c :: cs => escapeChar shortEscapes c ++ escapeString shortEscapes cs

/-- The value of a hexadecimal digit. -/
def hexValue (c : Char) : Option Nat :=
  if 48 ≤ c.toNat ∧ c.toNat ≤ 57 then some (c.toNat - 48)
  else if 97 ≤ c.toNat ∧ c.toNat ≤ 102 then some (c.toNat - 87)
  else if 65 ≤ c.toNat ∧ c.toNat ≤ 70 then some (c.toNat - 55)
  else none

/-- The character a JSON two-character escape denotes. -/
def unescape (e : Char) : Option Char :=
  if e = '\x22' ∨ e = '\\' ∨ e = '/' then some e
  else if e = 'b' then some '\x08'
  else if e = 'f' then some '\x0c'
  else if e = 'n' then some '\n'
  else if e = 'r' then some '\r'
  else if e = 't' then some '\t'
  else none

/-- The character a JSON escape `\uXXXX` denotes. -/
def decode4 (a b c d : Char) : Option Char :=
  match hexValue a, hexValue b, hexValue c, hexValue d with
  | some x, some y, some z, some w => some (Char.ofNat (((x * 16 + y) * 16 + z) * 16 + w))
  | _, _, _, _ => none

/-- Read a JSON string from after its opening quotation mark: the characters
it denotes and the text after the closing quotation mark. -/
def readString : List Char → Option (List Char × List Char)
  | [] => none
  | c :: rest =>
    if c = '\x22' then some ([], rest)
    else if c = '\\' then
      match rest with
      | [] => none
      | e :: rest₁ =>
        if e = 'u' then
          match rest₁ with
          | a :: b :: c :: d :: rest₂ =>
            match decode4 a b c d, readString rest₂ with
            | some ch, some (s, after) => some (ch :: s, after)
            | _, _ => none
          | _ => none
        else
          match unescape e, readString rest₁ with
          | some ch, some (s, after) => some (ch :: s, after)
          | _, _ => none
    else
      match readString rest with
      | some (s, after) => some (c :: s, after)
      | none => none

/-- The decimal digits of `n`, most significant first; `fuel` bounds the
number of digits. -/
def decimalDigits : Nat → Nat → List Char
  | 0, _ => []
  | fuel + 1, n =>
    if n < 10 then [Char.ofNat (48 + n)]
    else decimalDigits fuel (n / 10) ++ [Char.ofNat (48 + n % 10)]

/-- The decimal numeral of a natural number. -/
def decimal (n : Nat) : String := String.mk (decimalDigits (n + 1) n)

/-- How `encoding/json` writes a `float64`: a whole number from `0` to
`2 ^ 53` is written as its decimal numeral (format `f`, shortest digits);
`other` stands for the text of every other value. -/
def jsonNumber (other : ℚ → String) (x : ℚ) : String :=
  if x.den = 1 ∧ 0 ≤ x.num ∧ x.num ≤ 2 ^ 53 then decimal x.num.toNat else other x

/-- The value of a decimal digit. -/
def digitValue (c : Char) : Option Nat :=
  if 48 ≤ c.toNat ∧ c.toNat ≤ 57 then some (c.toNat - 48) else none

/-- Read decimal digits as long as there are some, continuing the number `acc`. -/
def readDigits : List Char → Nat → Nat × List Char
  | [], acc => (acc, [])
  | c :: rest, acc =>
    match digitValue c with
    | some d => readDigits rest (10 * acc + d)
    | none => (acc, c :: rest)

/-- A JSON string or number, the two kinds of value a `SystemInfo` holds. -/
inductive JsonScalar where
  | str (s : String)
  | num (x : ℚ)
  deriving DecidableEq

/-- Read a JSON string or a whole number, and return the text after it. -/
def readValue : List Char → Option (JsonScalar × List Char)
  | [] => none
  | c :: rest =>
    if c = '\x22' then
      match readString rest with
      | some (s, after) => some (.str (String.mk s), after)
      | none => none
    else
      match digitValue c with
      | some _ => some (.num ((readDigits (c :: rest) 0).1 : ℚ), (readDigits (c :: rest) 0).2)
      | none => none

/-- Read the members `"key":value` of a JSON object, separated by commas, up
to the closing brace that ends the text; `fuel` bounds their number. -/
def readMembers : Nat → List Char → Option (List (String × JsonScalar))
  | 0, _ => none
  | fuel + 1, text =>
    match text with
    | [] => none
    | q :: rest =>
      if q = '\x22' then
        match readString rest with
        | some (key, c :: rest₁) =>
          if c = ':' then
            match readValue rest₁ with
            | some (v, d :: rest₂) =>
              if d = '\x7d' then (if rest₂ = [] then some [(String.mk key, v)] else none)
              else if d = ',' then
                match readMembers fuel rest₂ with
                | some ms => some ((String.mk key, v) :: ms)
                | none => none
              else none
            | _ => none
          else none
        | _ => none
      else none

/-- Read a compact JSON object whose values are strings and whole numbers:
its members, in order; `none` when the text is not such an object. -/
def readObject (doc : String) : Option (List (String × JsonScalar)) :=
  match doc.data with
  | [] => none
  | c :: rest =>
    if c = '\x7b' then (if rest = ['\x7d'] then some [] else readMembers rest.length rest) else none

/-- The text `encoding/json` writes for a value. -/
def renderValue (shortEscapes : Bool) (other : ℚ → String) : JsonScalar → List Char
  | .str s => '\x22' :: escapeString shortEscapes s.data ++ ['\x22']
  | .num x => (jsonNumber other x).data

/-- The text of one member: the quoted key, a colon, the value. -/
def renderMember (shortEscapes : Bool) (other : ℚ → String) (m : String × JsonScalar) :
    List Char :=
  '\x22' :: escapeString shortEscapes m.1.data ++
    '\x22' :: ':' :: renderValue shortEscapes other m.2

/-- The text of the members, separated by commas. -/
def renderMembers (shortEscapes : Bool) (other : ℚ → String) :
    List (String × JsonScalar) → List Char
  | [] => []
  | [m] => renderMember shortEscapes other m
  | m :: m' :: rest =>
    renderMember shortEscapes other m ++ ',' :: renderMembers shortEscapes other (m' :: rest)

/-- The text of a JSON object: the members between braces. -/
def renderObject (shortEscapes : Bool) (other : ℚ → String)
    (members : List (String × JsonScalar)) : String :=
  String.mk ('\x7b' :: (renderMembers shortEscapes other members ++ ['\x7d']))

/-- Values the reader recovers: any string, and the whole numbers up to `2 ^ 53`. -/
def JsonScalar.Plain : JsonScalar → Prop
  | .str _ => True
  | .num x => ∃ n : Nat, n ≤ 2 ^ 53 ∧ x = (n : ℚ)

/-- One field of a struct as `encoding/json` sees it: the name and the
`omitempty` option of its `json` tag, and the value. -/
structure JsonField where
  name : String
  omitEmpty : Bool
  value : JsonScalar

/-- The values `omitempty` leaves out: the empty string and zero. -/
def JsonScalar.isEmptyValue : JsonScalar → Bool
  | .str s => s.data.isEmpty
  | .num x => decide (x = 0)

/-- The fields of `SystemInfo`, in declaration order, with their `json` tags:
no tag has the option `omitempty`. -/
def systemInfoFields (info : SystemInfo) : List JsonField :=
  [⟨"cpuModel", false, .str info.CPUModel⟩,
   ⟨"totalMemoryGB", false, .num info.TotalMemoryGB⟩,
   ⟨"totalStorageGB", false, .num info.TotalStorageGB⟩,
   ⟨"productModel", false, .str info.ProductModel⟩,
   ⟨"os", false, .str info.OS⟩,
   ⟨"osVersion", false, .str info.OSVersion⟩,
   ⟨"serialNumber", false, .str info.SerialNumber⟩,
   ⟨"manufacturer", false, .str info.Manufacturer⟩]

/-- The members `encoding/json` writes for a struct: one for every field, in
order, except the fields tagged `omitempty` whose value is empty. -/
def encodedMembers (fields : List JsonField) : List (String × JsonScalar) :=
  (fields.filter fun f => !(f.omitEmpty && f.value.isEmptyValue)).map fun f => (f.name, f.value)

/-- The members written for a `SystemInfo`. -/
def systemInfoMembers (info : SystemInfo) : List (String × JsonScalar) :=
  encodedMembers (systemInfoFields info)

/-- Function `json.Marshal` on a `SystemInfo`: it cannot fail on finite numbers
(only `NaN` and the infinities are rejected) and writes the object of the
struct's members. Strings are texts here; bytes that are not UTF-8, which
`encoding/json` replaces by `\ufffd`, do not occur. -/
def jsonMarshal (shortEscapes : Bool) (other : ℚ → String) (info : SystemInfo) :
    Except GoError String :=
  .ok (renderObject shortEscapes other (systemInfoMembers info))

/-- Function `redirectBehavior` of `net/http`: whether the client follows the
response, and then with which method and whether with the body. The body of
`http.Post` is a `*bytes.Buffer`, which can always be sent again. -/
def redirectBehavior (reqMethod : String) (resp : HttpResponse) : Option (String × Bool) :=
  if resp.StatusCode = 301 ∨ resp.StatusCode = 302 ∨ resp.StatusCode = 303 then
    some (if reqMethod ≠ "GET" ∧ reqMethod ≠ "HEAD" then "GET" else reqMethod, false)
  else if resp.StatusCode = 307 ∨ resp.StatusCode = 308 then some (reqMethod, true)
  else none

/-- The text of the `*url.Error` the client wraps its errors in. -/
def urlError {Data : Type} (env : Env Data) (op url : String) (err : GoError) : GoError :=
  op ++ " " ++ env.quote url ++ ": " ++ err

/-- What one turn of the client's loop decides. -/
inductive ClientStep where
  | done (result : Except GoError HttpResponse)
  | follow (resp : HttpResponse) (next : HttpRequest)

/-- One turn of the loop of `(*http.Client).do`: send `req`, the request of
index `sent`; return the transport's error, or the response when it is not a
redirect to follow (no redirect status, or no `Location`, which older
releases of Go reported as an error), or the error of a `Location` that does
not parse; otherwise build the request that follows. -/
def clientStep {Data : Type} (env : Env Data) (contentType body : String) (sent : Nat)
    (req : HttpRequest) : ClientStep :=
  match env.roundTrip sent req with
  | .error err => .done (.error (urlError env "Post" req.URL err))
  | .ok resp =>
    match redirectBehavior req.Method resp with
    | none => .done (.ok resp)
    | some (redirectMethod, includeBody) =>
      if resp.Location = "" then .done (.ok resp)
      else
        match env.resolveLocation req.URL resp.Location with
        | .error err =>
          .done (.error (urlError env "Post" req.URL
            ("failed to parse Location header " ++ env.quote resp.Location ++ ": " ++ err)))
        | .ok u =>
          .follow resp
            { Method := redirectMethod
              URL := u
              ContentType := if includeBody then some contentType else none
              Body := if includeBody then some body else none }

/-- The loop of `(*http.Client).do` for the default client, from the request
`req` of index `sent` on, when `remaining` more requests may follow it: the
default `CheckRedirect` refuses the request that would follow the tenth.
Returns what `http.Post` returns and the requests put on the wire. -/
def clientDo {Data : Type} (env : Env Data) (contentType body : String) :
    Nat → Nat → HttpRequest → Except GoError HttpResponse × List HttpRequest
  | 0, sent, req =>
    match clientStep env contentType body sent req with
    | .done result => (result, [req])
    | .follow resp _ =>
      (.error (urlError env "Post" resp.Location "stopped after 10 redirects"), [req])
  | remaining + 1, sent, req =>
    match clientStep env contentType body sent req with
    | .done result => (result, [req])
    | .follow _ next =>
      let rest := clientDo env contentType body remaining (sent + 1) next
      (rest.1, req :: rest.2)

/-- Function `http.Post(url, contentType, body)`: a `POST` request sent by
the default client, which follows redirects. -/
def httpPost {Data : Type} (env : Env Data) (url contentType body : String) :
    Except GoError HttpResponse × List HttpRequest :=
  clientDo env contentType body 9 0
    { Method := "POST", URL := url, ContentType := some contentType, Body := some body }

/-! ## The program -/

/-- Function `infoToString`: `json.MarshalIndent(info, "", "  ")`. -/
def infoToString {Data : Type} (env : Env Data) (info : Data) : String × Option GoError :=
  match env.marshalIndent info "" "  " with
  | .error err => ("", some err)
  | .ok infoJSON => (infoJSON, none)

/-- Function `extractCPUModelName`. -/
def extractCPUModelName {Data : Type} (env : Env Data) (cpuInfoJSON : String) :
    String × Option GoError :=
  match env.unmarshalCPUInfo cpuInfoJSON with
  | .error err => ("", some err)
  | .ok cpuInfo =>
    match cpuInfo with
    | first :: _ => (first.ModelName, none)
    | [] => ("", some "no CPU information found")

/-- Function `retrieveCPUInfo`. -/
def retrieveCPUInfo {Data : Type} (env : Env Data) : Ret String :=
  match env.cpuInfo with
  | .error err => ⟨"", some err, [println ["Failed to retrieve CPU info:", err]]⟩
  | .ok cpuInfo =>
    match infoToString env cpuInfo with
    | (_, some err) => ⟨"", some err, [println ["Failed to convert to JSON:", err]]⟩
    | (cpuInfoJson, none) =>
      match extractCPUModelName env cpuInfoJson with
      | (_, some err) => ⟨"", some err, [println ["Error extracting model name:", err]]⟩
      | (cpuModelName, none) =>
        ⟨cpuModelName, none, [println ["CPU Model Name: ", cpuModelName]]⟩

/-- Function `retrieveMemoryInfo`. -/
def retrieveMemoryInfo {Data : Type} (env : Env Data) : Ret Nat :=
  match env.virtualMemory with
  | .error err => ⟨0, some err, [println ["Failed to retrieve memory info:", err]]⟩
  | .ok memInfo =>
    match infoToString env memInfo with
    | (_, some err) => ⟨0, some err, [println ["Failed to convert to JSON:", err]]⟩
    | (memoryInfoJson, none) =>
      match env.unmarshalMemoryInfo memoryInfoJson with
      | .error err_conv =>
        ⟨0, some err_conv, [println ["Error unmarshalling memory info:", err_conv]]⟩
      | .ok memoryInfo =>
        let totalMemory := memoryInfo.Total
        ⟨totalMemory, none, [println ["Total memory:", toString totalMemory]]⟩

/-- Function `retrieveStorageInfo`. -/
def retrieveStorageInfo {Data : Type} (env : Env Data) : Ret Nat :=
  match env.diskUsage "/" with
  | .error err => ⟨0, some err, [println ["Failed to retrieve disk info:", err]]⟩
  | .ok diskInfo =>
    match infoToString env diskInfo with
    | (_, some err) => ⟨0, some err, [println ["Failed to convert to JSON:", err]]⟩
    | (storageInfoJson, none) =>
      match env.unmarshalStorageInfo storageInfoJson with
      | .error err_conv =>
        ⟨0, some err_conv, [println ["Error unmarshalling storage info:", err_conv]]⟩
      | .ok storageInfo =>
        let totalStorage := storageInfo.Total
        ⟨totalStorage, none, [println ["Total storage:", toString totalStorage]]⟩

/-- Function `retrieveHostInfo`. -/
def retrieveHostInfo {Data : Type} (env : Env Data) : Ret (String × String) :=
  match env.hostInfo with
  | .error err => ⟨("", ""), some err, [println ["Failed to retrieve host info:", err]]⟩
  | .ok hostInfo =>
    match infoToString env hostInfo with
    | (_, some err) => ⟨("", ""), some err, [println ["Failed to convert to JSON:", err]]⟩
    | (hostInfoJson, none) =>
      match env.unmarshalHostInfo hostInfoJson with
      | .error err_conv =>
        ⟨("", ""), some err_conv, [println ["Error unmarshalling storage info:", err_conv]]⟩
      | .ok hostOsInfo => ⟨(hostOsInfo.Os, hostOsInfo.Version), none, []⟩

/-- Function `retrieveManufacturer`. -/
def retrieveManufacturer {Data : Type} (env : Env Data) : Ret String :=
  match env.run ["wmic", "baseboard", "get", "manufacturer"] with
  | .error err => ⟨"", some err, [println ["Error executing command:", err]]⟩
  | .ok out =>
    let err : Option GoError := none
    let printed := [println ["Command output:"], println [out]]
    let lines := stringsSplit out '\n'
    if h : 2 ≤ lines.length then ⟨lines[1], none, printed⟩ else ⟨"", err, printed⟩

/-- Function `retrieveSerialNumber`. -/
def retrieveSerialNumber {Data : Type} (env : Env Data) : Ret String :=
  match env.run ["wmic", "bios", "get", "serialnumber"] with
  | .error err => ⟨"", some err, [println ["Error executing command:", err]]⟩
  | .ok out =>
    let err : Option GoError := none
    let printed := [println ["Command output:"], println [out]]
    let lines := stringsSplit out '\n'
    if h : 2 ≤ lines.length then ⟨lines[1], none, printed⟩ else ⟨"", err, printed⟩

/-- Function `retrieveProductModel`. -/
def retrieveProductModel {Data : Type} (env : Env Data) : Ret String :=
  match env.run ["wmic", "csproduct", "get", "name"] with
  | .error err => ⟨"", some err, [println ["Error executing command:", err]]⟩
  | .ok out =>
    let err : Option GoError := none
    let printed := [println ["Command output:"], println [out]]
    let lines := stringsSplit out '\n'
    if h : 2 ≤ lines.length then ⟨lines[1], none, printed⟩ else ⟨"", err, printed⟩

/-- Function `sendRequest`. -/
def sendRequest {Data : Type} (env : Env Data) (systemInfo : String) : Ret Unit :=
  let url := "http://localhost:8000/api/v1/asset/useragent"
  let answer := httpPost env url "application/json" systemInfo
  let sent := Event.httpPost url "application/json" systemInfo :: answer.2.map Event.request
  match answer.1 with
  | .error err => ⟨(), some err, sent ++ [println ["Error sending JSON:", err]]⟩
  | .ok resp => ⟨(), none, sent ++ [println ["Response status:", resp.Status]]⟩

/-- Function `main`: the record it assembles and everything it prints and sends. -/
def main {Data : Type} (env : Env Data) : SystemInfo × List Event :=
  let r1 := retrieveCPUInfo env
  let cpuModel := r1.val
  let r2 := retrieveMemoryInfo env
  let totalMemoryBytes := r2.val
  let totalMemoryBytes_64 := uint64 totalMemoryBytes
  let totalMemoryGB := mathRound (bytesToGB totalMemoryBytes_64)
  let r3 := retrieveStorageInfo env
  let totalStorageBytes := r3.val
  let totalStorageBytes_64 := uint64 totalStorageBytes
  let totalStorageGB := mathRound (bytesToGB totalStorageBytes_64)
  let r4 := retrieveProductModel env
  let productModel := r4.val
  let r5 := retrieveHostInfo env
  let os := r5.val.1
  let osVersion := r5.val.2
  let os := if os = "windows" then "WINDOWS" else os
  let r6 := retrieveSerialNumber env
  let serialNumber := r6.val
  let r7 := retrieveManufacturer env
  let manufacturer := r7.val
  let info : SystemInfo :=
    { CPUModel := cpuModel
      TotalMemoryGB := totalMemoryGB
      TotalStorageGB := totalStorageGB
      ProductModel := productModel
      OS := os
      OSVersion := osVersion
      SerialNumber := serialNumber
      Manufacturer := manufacturer }
  let printed := r1.out ++ r2.out ++ r3.out ++ r4.out ++ r5.out ++ r6.out ++ r7.out
  (info,
    printed ++
      match env.marshal info with
      | .error err => [println ["Error marshaling JSON:", err]]
      | .ok data => (sendRequest env data).out)

/-! ## Sample environments -/

/-- An environment in which every provider, command and request fails. -/
def failingEnv : Env Unit where
  cpuInfo := .error "cpu unavailable"
  virtualMemory := .error "memory unavailable"
  diskUsage := fun _ => .error "disk unavailable"
  hostInfo := .error "host unavailable"
  marshalIndent := fun _ _ _ => .error "unsupported value"
  unmarshalCPUInfo := fun _ => .error "unexpected end of JSON input"
  unmarshalMemoryInfo := fun _ => .error "unexpected end of JSON input"
  unmarshalStorageInfo := fun _ => .error "unexpected end of JSON input"
  unmarshalHostInfo := fun _ => .error "unexpected end of JSON input"
  run := fun _ => .error "exec: \"wmic\": executable file not found in $PATH"
  marshal := fun _ => .error "unsupported value"
  roundTrip := fun _ _ => .error "dial tcp 127.0.0.1:8000: connect: connection refused"
  resolveLocation := fun _ location => .ok location
  quote := fun s => "\"" ++ s ++ "\""

/-- An environment in which every command prints the given text and succeeds. -/
def commandEnv (text : String) : Env Unit :=
  { failingEnv with run := fun _ => .ok text }

/-- An environment whose host provider reports the given OS name and version. -/
def hostEnv (os version : String) : Env Unit :=
  { failingEnv with
    hostInfo := .ok ()
    marshalIndent := fun _ _ _ => .ok "host"
    unmarshalHostInfo := fun _ => .ok ⟨os, version⟩ }

/-- A number writer for the sample environments, in which only whole numbers
are written. -/
def noOtherNumber (_ : ℚ) : String := "0"

/-- The environment in which `json.Marshal` is the encoder of `encoding/json`. -/
def Env.withJsonMarshal {Data : Type} (shortEscapes : Bool) (other : ℚ → String)
    (env : Env Data) : Env Data :=
  { env with marshal := jsonMarshal shortEscapes other }

/-- An environment in which every extractor fails, the record is serialised
by `jsonMarshal` and the request is answered with status 500. -/
def reportingEnv : Env Unit :=
  { failingEnv with
    marshal := jsonMarshal true noOtherNumber
    roundTrip := fun _ _ => .ok ⟨500, "500 Internal Server Error", ""⟩ }

/-- An environment whose server answers every request with a redirect to the
endpoint that keeps the method and the body (status 307). -/
def redirectLoopEnv : Env Unit :=
  { failingEnv with
    roundTrip := fun _ _ =>
      .ok ⟨307, "307 Temporary Redirect", "http://localhost:8000/api/v1/asset/useragent"⟩ }

/-- An environment whose server redirects the first request (status 307) and
accepts the second. -/
def redirectOnceEnv : Env Unit :=
  { failingEnv with
    roundTrip := fun n _ =>
      if n = 0 then
        .ok ⟨307, "307 Temporary Redirect", "http://localhost:8000/api/v1/asset/useragent"⟩
      else .ok ⟨200, "200 OK", ""⟩ }

/-- A CPU record with the given model name. -/
def cpuRecord (modelName : String) : CPUInfo :=
  { CPU := 0, VendorID := "GenuineIntel", Family := "6", Model := "142", Stepping := 10,
    PhysicalID := "0", CoreID := "0", Cores := 4, ModelName := modelName, Mhz := 1800,
    CacheSize := 6144, Flags := ["fpu", "vme"], Microcode := "0xf0" }

/-- An environment whose CPU provider reports two records. -/
def twoCpuEnv : Env Unit :=
  { failingEnv with
    cpuInfo := .ok ()
    marshalIndent := fun _ _ _ => .ok "cpus"
    unmarshalCPUInfo := fun _ => .ok [cpuRecord "Intel(R) Core(TM) i5", cpuRecord "other"] }

/-- A Windows host with 16 GiB of memory and a disk of 500107862016 bytes,
whose inventory tool prints a header line and a value line ending in CRLF; the
record is serialised by `jsonMarshal` and the request accepted. The providers
hand over the name of the facts asked for. -/
def inventoryEnv : Env String :=
  { cpuInfo := .ok "cpu"
    virtualMemory := .ok "memory"
    diskUsage := fun _ => .ok "disk"
    hostInfo := .ok "host"
    marshalIndent := fun facts _ _ => .ok facts
    unmarshalCPUInfo := fun _ => .ok [cpuRecord "Intel(R) Core(TM) i5"]
    unmarshalMemoryInfo := fun _ => .ok ⟨17179869184⟩
    unmarshalStorageInfo := fun _ => .ok ⟨500107862016⟩
    unmarshalHostInfo := fun _ => .ok ⟨"windows", "10.0.19045"⟩
    run := fun args =>
      if args = ["wmic", "csproduct", "get", "name"] then .ok "Name  \r\nLatitude 5490  \r\n"
      else if args = ["wmic", "bios", "get", "serialnumber"] then
        .ok "SerialNumber  \r\nPF2ABCDE  \r\n"
      else .ok "Manufacturer  \r\nDell Inc.  \r\n"
    marshal := jsonMarshal true noOtherNumber
    roundTrip := fun _ _ => .ok ⟨200, "200 OK", ""⟩
    resolveLocation := fun _ location => .ok location
    quote := fun s => "\"" ++ s ++ "\"" }

/-- An environment whose CPU provider reports no record at all. -/
def noCpuEnv : Env Unit :=
  { failingEnv with
    cpuInfo := .ok ()
    marshalIndent := fun _ _ _ => .ok "[]"
    unmarshalCPUInfo := fun _ => .ok [] }

/-! ### Arithmetic of the conversion -/

theorem roundToEven_zero (b : Nat) : roundToEven 0 b = b := by
  simp [roundToEven, Nat.mod_one]

theorem roundToEven_ge (s k b : Nat) (h : k * 2 ^ s ≤ b) : k * 2 ^ s ≤ roundToEven s b := by
  have hp : 0 < 2 ^ s := Nat.two_pow_pos s
  have hk : k ≤ b / 2 ^ s := (Nat.le_div_iff_mul_le hp).2 h
  have h1 : k * 2 ^ s ≤ b / 2 ^ s * 2 ^ s := Nat.mul_le_mul_right _ hk
  have h2 : b / 2 ^ s * 2 ^ s ≤ (b / 2 ^ s + 1) * 2 ^ s :=
    Nat.mul_le_mul_right _ (Nat.le_succ _)
  unfold roundToEven
  dsimp only
  split_ifs
  · exact le_trans h1 h2
  · exact h1

theorem roundToEven_le (s k b : Nat) (h : b ≤ k * 2 ^ s) : roundToEven s b ≤ k * 2 ^ s := by
  have hp : 0 < 2 ^ s := Nat.two_pow_pos s
  have hdm : 2 ^ s * (b / 2 ^ s) + b % 2 ^ s = b := Nat.div_add_mod b (2 ^ s)
  unfold roundToEven
  dsimp only
  split_ifs with hc
  · have hr : 0 < b % 2 ^ s := by
      rcases hc with hc | ⟨hc, _⟩ <;> omega
    have hq : b / 2 ^ s < k := by
      by_contra hcon
      push_neg at hcon
      have : k * 2 ^ s ≤ b / 2 ^ s * 2 ^ s := Nat.mul_le_mul_right _ hcon
      rw [Nat.mul_comm (b / 2 ^ s)] at this
      omega
    exact Nat.mul_le_mul_right _ hq
  · calc b / 2 ^ s * 2 ^ s ≤ b := Nat.div_mul_le_self b (2 ^ s)
      _ ≤ k * 2 ^ s := h

theorem roundToEven_mono (s a b : Nat) (h : a ≤ b) : roundToEven s a ≤ roundToEven s b := by
  have hp : 0 < 2 ^ s := Nat.two_pow_pos s
  have hq : a / 2 ^ s ≤ b / 2 ^ s := Nat.div_le_div_right h
  rcases Nat.lt_or_ge (a / 2 ^ s) (b / 2 ^ s) with hlt | hge
  · have h1 : roundToEven s a ≤ (a / 2 ^ s + 1) * 2 ^ s := by
      apply roundToEven_le
      have hdm : 2 ^ s * (a / 2 ^ s) + a % 2 ^ s = a := Nat.div_add_mod a (2 ^ s)
      have hr : a % 2 ^ s < 2 ^ s := Nat.mod_lt a hp
      rw [Nat.add_mul, Nat.mul_comm (a / 2 ^ s)]
      omega
    have h2 : (a / 2 ^ s + 1) * 2 ^ s ≤ b / 2 ^ s * 2 ^ s := Nat.mul_le_mul_right _ hlt
    have h3 : b / 2 ^ s * 2 ^ s ≤ roundToEven s b :=
      roundToEven_ge s _ b (Nat.div_mul_le_self b (2 ^ s))
    exact le_trans h1 (le_trans h2 h3)
  · have heq : a / 2 ^ s = b / 2 ^ s := le_antisymm hq hge
    have ha : 2 ^ s * (a / 2 ^ s) + a % 2 ^ s = a := Nat.div_add_mod a (2 ^ s)
    have hb : 2 ^ s * (b / 2 ^ s) + b % 2 ^ s = b := Nat.div_add_mod b (2 ^ s)
    have hr : a % 2 ^ s ≤ b % 2 ^ s := by
      rw [heq] at ha
      omega
    unfold roundToEven
    dsimp only
    rw [heq]
    split_ifs with hca hcb hcb
    · exact le_refl _
    · exfalso
      apply hcb
      rcases hca with hca | ⟨hca, hodd⟩
      · left; omega
      · rcases Nat.eq_or_lt_of_le hr with he | hl
        · right; exact ⟨by omega, hodd⟩
        · left; omega
    · exact Nat.mul_le_mul_right _ (Nat.le_succ _)
    · exact le_refl _

theorem float64Shift_spec (fuel b : Nat) (h : b < 2 ^ (53 + fuel)) :
    (b < 2 ^ 53 ∧ float64Shift fuel b = 0) ∨
      (2 ^ (52 + float64Shift fuel b) ≤ b ∧ b < 2 ^ (53 + float64Shift fuel b) ∧
        1 ≤ float64Shift fuel b ∧ float64Shift fuel b ≤ fuel) := by
  induction fuel generalizing b with
  | zero => left; exact ⟨by simpa using h, rfl⟩
  | succ n ih =>
    unfold float64Shift
    by_cases hb : b < 2 ^ 53
    · left; rw [if_pos hb]; exact ⟨hb, rfl⟩
    · right
      rw [if_neg hb]
      have hhalf : b / 2 < 2 ^ (53 + n) := by
        have : 2 ^ (53 + (n + 1)) = 2 * 2 ^ (53 + n) := by ring
        omega
      rcases ih (b / 2) hhalf with ⟨h1, h2⟩ | ⟨h1, h2, h3, h4⟩
      · rw [h2]
        refine ⟨?_, ?_, by omega, by omega⟩
        · have : (2 : Nat) ^ (52 + (0 + 1)) = 2 ^ 53 := by norm_num
          omega
        · have : (2 : Nat) ^ (53 + (0 + 1)) = 2 * 2 ^ 53 := by norm_num
          omega
      · refine ⟨?_, ?_, by omega, by omega⟩
        · have : (2 : Nat) ^ (52 + (float64Shift n (b / 2) + 1)) =
              2 * 2 ^ (52 + float64Shift n (b / 2)) := by ring
          omega
        · have : (2 : Nat) ^ (53 + (float64Shift n (b / 2) + 1)) =
              2 * 2 ^ (53 + float64Shift n (b / 2)) := by ring
          omega

theorem float64Shift_mono (fuel a b : Nat) (h : a ≤ b) :
    float64Shift fuel a ≤ float64Shift fuel b := by
  induction fuel generalizing a b with
  | zero => simp [float64Shift]
  | succ n ih =>
    unfold float64Shift
    by_cases ha : a < 2 ^ 53
    · rw [if_pos ha]; exact Nat.zero_le _
    · have hb : ¬ b < 2 ^ 53 := by omega
      rw [if_neg ha, if_neg hb]
      exact Nat.succ_le_succ (ih _ _ (Nat.div_le_div_right h))

theorem float64Value_of_le (b : Nat) (h : b ≤ 2 ^ 53) : float64Value b = b := by
  unfold float64Value
  rcases Nat.eq_or_lt_of_le h with he | hl
  · subst he; decide
  · have : float64Shift 11 b = 0 := by
      unfold float64Shift
      rw [if_pos hl]
    rw [this, roundToEven_zero]

theorem float64Value_mono (a b : Nat) (hab : a ≤ b) (hb : b < 2 ^ 64) :
    float64Value a ≤ float64Value b := by
  unfold float64Value
  have hs := float64Shift_mono 11 a b hab
  rcases Nat.eq_or_lt_of_le hs with he | hl
  · rw [he]; exact roundToEven_mono _ _ _ hab
  · have hA := float64Shift_spec 11 a (by norm_num; omega)
    have hB := float64Shift_spec 11 b (by norm_num; omega)
    set sa := float64Shift 11 a with hsa
    set sb := float64Shift 11 b with hsb
    have hB1 : 2 ^ (52 + sb) ≤ b := by
      rcases hB with ⟨_, h0⟩ | ⟨h1, _⟩
      · omega
      · exact h1
    have hA1 : a ≤ 2 ^ (53 + sa) := by
      rcases hA with ⟨h1, h0⟩ | ⟨_, h2, _⟩
      · rw [h0]; exact le_of_lt h1
      · exact le_of_lt h2
    have e1 : (2 : Nat) ^ (53 + sa) = 2 ^ 53 * 2 ^ sa := by rw [pow_add]
    have e2 : (2 : Nat) ^ (52 + sb) = 2 ^ 52 * 2 ^ sb := by rw [pow_add]
    have h1 : roundToEven sa a ≤ 2 ^ 53 * 2 ^ sa := roundToEven_le sa _ a (e1 ▸ hA1)
    have h2 : 2 ^ 52 * 2 ^ sb ≤ roundToEven sb b := roundToEven_ge sb _ b (e2 ▸ hB1)
    have h3 : (2 : Nat) ^ (53 + sa) ≤ 2 ^ (52 + sb) :=
      Nat.pow_le_pow_right (by decide) (by omega)
    rw [e1, e2] at h3
    exact le_trans h1 (le_trans h3 h2)

theorem roundToEven_near (s b : Nat) :
    2 * roundToEven s b ≤ 2 * b + 2 ^ s ∧ 2 * b ≤ 2 * roundToEven s b + 2 ^ s := by
  have hp : 0 < 2 ^ s := Nat.two_pow_pos s
  have hdm : 2 ^ s * (b / 2 ^ s) + b % 2 ^ s = b := Nat.div_add_mod b (2 ^ s)
  have hr : b % 2 ^ s < 2 ^ s := Nat.mod_lt b hp
  unfold roundToEven
  dsimp only
  split_ifs with hc
  · rw [Nat.add_mul, Nat.mul_comm (b / 2 ^ s)]
    rcases hc with hc | ⟨hc, _⟩ <;> omega
  · rw [Nat.mul_comm (b / 2 ^ s)]
    have h1 : ¬ 2 ^ s < 2 * (b % 2 ^ s) := fun h => hc (Or.inl h)
    omega

theorem float64Value_near (b : Nat) (hb : b < 2 ^ 64) :
    float64Value b ≤ b + 2 ^ 10 ∧ b ≤ float64Value b + 2 ^ 10 := by
  have hS := float64Shift_spec 11 b (by norm_num; omega)
  have hs : float64Shift 11 b ≤ 11 := by
    rcases hS with ⟨_, h0⟩ | ⟨_, _, _, h4⟩
    · omega
    · exact h4
  have hpow : 2 ^ float64Shift 11 b ≤ 2 ^ 11 := Nat.pow_le_pow_right (by decide) hs
  have hn := roundToEven_near (float64Shift 11 b) b
  unfold float64Value
  norm_num at hpow ⊢
  omega

theorem float64Value_significand (b : Nat) (hb : b < 2 ^ 64) :
    ∃ m s : Nat, m ≤ 2 ^ 53 ∧ s ≤ 11 ∧ float64Value b = m * 2 ^ s := by
  have hS := float64Shift_spec 11 b (by norm_num; omega)
  have hlt : b < 2 ^ 53 * 2 ^ float64Shift 11 b ∧ float64Shift 11 b ≤ 11 := by
    rcases hS with ⟨h1, h0⟩ | ⟨_, h2, _, h4⟩
    · rw [h0]; exact ⟨by simpa using h1, Nat.zero_le _⟩
    · rw [pow_add] at h2; exact ⟨h2, h4⟩
  have hq : b / 2 ^ float64Shift 11 b < 2 ^ 53 :=
    (Nat.div_lt_iff_lt_mul (Nat.two_pow_pos _)).2 hlt.1
  unfold float64Value roundToEven
  dsimp only
  split_ifs
  · exact ⟨_, _, hq, hlt.2, rfl⟩
  · exact ⟨_, _, le_of_lt hq, hlt.2, rfl⟩

theorem bytesToGB_isFloat64 (b : Nat) (hb : b < 2 ^ 64) : IsFloat64 (bytesToGB b) := by
  obtain ⟨m, s, hm, hs, he⟩ := float64Value_significand b hb
  refine ⟨m, (s : Int) - 30, hm, by omega, by omega, ?_⟩
  unfold bytesToGB float64OfUint64 gigabyte
  rw [he, zpow_sub₀ (by norm_num), zpow_natCast]
  push_cast
  norm_num
  ring

theorem mathRound_div_gigabyte (n : Nat) :
    mathRound ((n : ℚ) / gigabyte) = (((n + 2 ^ 29) / 2 ^ 30 : Nat) : ℚ) := by
  have hg : gigabyte = (2 : ℚ) ^ 30 := by norm_num [gigabyte]
  have hnn : (0 : ℚ) ≤ (n : ℚ) / gigabyte := by
    rw [hg]; positivity
  unfold mathRound
  rw [if_pos hnn]
  have hx : (n : ℚ) / gigabyte + 1 / 2 = ((n + 2 ^ 29 : Nat) : ℚ) / ((2 ^ 30 : Nat) : ℚ) := by
    rw [hg]; push_cast; ring
  rw [hx, Rat.floor_natCast_div_natCast]
  norm_cast

theorem reportedGB_eq (b : Nat) :
    reportedGB b = (((float64Value (b % 2 ^ 64) + 2 ^ 29) / 2 ^ 30 : Nat) : ℚ) := by
  unfold reportedGB bytesToGB float64OfUint64 uint64
  exact mathRound_div_gigabyte _

theorem specRoundedGB_eq (b : Nat) : specRoundedGB b = (((b + 2 ^ 29) / 2 ^ 30 : Nat) : ℤ) := by
  unfold specRoundedGB
  have hx : (b : ℚ) / (1024 ^ 3 : ℚ) + 1 / 2 = ((b + 2 ^ 29 : Nat) : ℚ) / ((2 ^ 30 : Nat) : ℚ) := by
    push_cast; ring
  rw [hx, Rat.floor_natCast_div_natCast]
  norm_cast

/-! ### Splitting into lines -/

theorem splitOnSep_eq (sep : Char) (cs : List Char) :
    splitOnSep sep cs =
      cs.takeWhile (fun c => c != sep) ::
        (match cs.dropWhile (fun c => c != sep) with
          | [] => []
          | _ :: tl => splitOnSep sep tl) := by
  induction cs with
  | nil => rfl
  | cons c cs ih =>
    by_cases hc : c = sep
    · simp [splitOnSep, hc]
    · rw [splitOnSep, if_neg hc, ih]
      simp [hc]

theorem splitOnSep_get_one (sep : Char) (cs : List Char) :
    ((splitOnSep sep cs)[1]?).getD [] =
      ((cs.dropWhile (fun c => c != sep)).drop 1).takeWhile (fun c => c != sep) := by
  rw [splitOnSep_eq]
  cases h : cs.dropWhile (fun c => c != sep) with
  | nil => simp
  | cons d tl =>
    simp only [List.getElem?_cons_succ, List.drop_succ_cons, List.drop_zero]
    rw [splitOnSep_eq]
    simp

theorem splitOnSep_length (sep : Char) (cs : List Char) :
    2 ≤ (splitOnSep sep cs).length ↔ sep ∈ cs := by
  induction cs with
  | nil => simp [splitOnSep]
  | cons c cs ih =>
    by_cases hc : c = sep
    · subst hc
      rw [splitOnSep, if_pos rfl]
      have : 1 ≤ (splitOnSep c cs).length := by
        rw [splitOnSep_eq]; simp
      simp
      omega
    · rw [splitOnSep, if_neg hc]
      have hne : ¬ sep = c := fun h => hc h.symm
      rw [List.mem_cons, ← ih]
      rw [splitOnSep_eq]
      simp [hne]

theorem stringsSplit_get_one (s : String) :
    ((stringsSplit s '\n')[1]?).getD "" = secondLine s := by
  unfold stringsSplit secondLine
  rw [← splitOnSep_get_one]
  cases h : (splitOnSep '\n' s.data)[1]? <;> simp [List.getElem?_map, h]

theorem secondLine_no_line_feed (s : String) : '\n' ∉ (secondLine s).data := by
  unfold secondLine
  intro h
  have := List.mem_takeWhile_imp h
  simp at this

theorem secondLine_subset (s : String) (c : Char) (h : c ∈ (secondLine s).data) :
    c ∈ s.data := by
  unfold secondLine at h
  exact (List.dropWhile_sublist _).subset
    ((List.drop_sublist _ _).subset ((List.takeWhile_sublist _).subset h))

theorem second_line_ret (lines : List String) (printed : List Event) :
    (if h : 2 ≤ lines.length then (⟨lines[1], none, printed⟩ : Ret String)
      else ⟨"", none, printed⟩) = ⟨(lines[1]?).getD "", none, printed⟩ := by
  split
  · next h => simp [List.getElem?_eq_getElem (show 1 < lines.length from h)]
  · next h => simp [List.getElem?_eq_none (show lines.length ≤ 1 by omega)]

theorem retrieveManufacturer_ok {Data : Type} (env : Env Data) (out : String)
    (h : env.run ["wmic", "baseboard", "get", "manufacturer"] = .ok out) :
    retrieveManufacturer env =
      ⟨secondLine out, none, [println ["Command output:"], println [out]]⟩ := by
  unfold retrieveManufacturer
  rw [h]
  simp only []
  rw [second_line_ret, stringsSplit_get_one]

theorem retrieveSerialNumber_ok {Data : Type} (env : Env Data) (out : String)
    (h : env.run ["wmic", "bios", "get", "serialnumber"] = .ok out) :
    retrieveSerialNumber env =
      ⟨secondLine out, none, [println ["Command output:"], println [out]]⟩ := by
  unfold retrieveSerialNumber
  rw [h]
  simp only []
  rw [second_line_ret, stringsSplit_get_one]

theorem retrieveProductModel_ok {Data : Type} (env : Env Data) (out : String)
    (h : env.run ["wmic", "csproduct", "get", "name"] = .ok out) :
    retrieveProductModel env =
      ⟨secondLine out, none, [println ["Command output:"], println [out]]⟩ := by
  unfold retrieveProductModel
  rw [h]
  simp only []
  rw [second_line_ret, stringsSplit_get_one]

theorem retrieveManufacturer_error {Data : Type} (env : Env Data) (e : GoError)
    (h : env.run ["wmic", "baseboard", "get", "manufacturer"] = .error e) :
    retrieveManufacturer env = ⟨"", some e, [println ["Error executing command:", e]]⟩ := by
  unfold retrieveManufacturer
  rw [h]

theorem retrieveSerialNumber_error {Data : Type} (env : Env Data) (e : GoError)
    (h : env.run ["wmic", "bios", "get", "serialnumber"] = .error e) :
    retrieveSerialNumber env = ⟨"", some e, [println ["Error executing command:", e]]⟩ := by
  unfold retrieveSerialNumber
  rw [h]

theorem retrieveProductModel_error {Data : Type} (env : Env Data) (e : GoError)
    (h : env.run ["wmic", "csproduct", "get", "name"] = .error e) :
    retrieveProductModel env = ⟨"", some e, [println ["Error executing command:", e]]⟩ := by
  unfold retrieveProductModel
  rw [h]

theorem secondLine_pair (c : Char) (hc : c ≠ '\n') :
    secondLine (String.mk ['\n', c]) = String.mk [c] := by
  simp [secondLine, hc]

/-! ### Reading back what `encoding/json` writes -/

theorem hexValue_hexDigit : ∀ d, d < 16 → hexValue (hexDigit d) = some d := by decide

theorem decode4_unicodeEscape (n : Nat) (h : n < 65536) :
    decode4 (hexDigit (n / 4096 % 16)) (hexDigit (n / 256 % 16)) (hexDigit (n / 16 % 16))
      (hexDigit (n % 16)) = some (Char.ofNat n) := by
  unfold decode4
  rw [hexValue_hexDigit _ (Nat.mod_lt _ (by decide)), hexValue_hexDigit _ (Nat.mod_lt _ (by decide)),
    hexValue_hexDigit _ (Nat.mod_lt _ (by decide)), hexValue_hexDigit _ (Nat.mod_lt _ (by decide))]
  simp only []
  congr 2
  omega

theorem readString_cons_plain (c : Char) (rest : List Char) (h1 : c ≠ '\x22') (h2 : c ≠ '\\') :
    readString (c :: rest) =
      match readString rest with
      | some (s, after) => some (c :: s, after)
      | none => none := by
  rw [readString.eq_def]
  simp only [if_neg h1, if_neg h2]

theorem readString_escape (e ch : Char) (rest : List Char) (he : e ≠ 'u')
    (hu : unescape e = some ch) :
    readString ('\\' :: e :: rest) =
      match readString rest with
      | some (s, after) => some (ch :: s, after)
      | none => none := by
  rw [readString.eq_def]
  simp only [if_neg (show '\\' ≠ '\x22' by decide), if_neg he, if_true, hu]
  cases readString rest with
  | none => rfl
  | some p => rfl

theorem readString_unicode (c : Char) (rest : List Char) (h : c.toNat < 65536) :
    readString (unicodeEscape c ++ rest) =
      match readString rest with
      | some (s, after) => some (c :: s, after)
      | none => none := by
  unfold unicodeEscape
  simp only [List.cons_append, List.nil_append]
  rw [readString.eq_def]
  simp only [if_neg (show '\\' ≠ '\x22' by decide), if_true, decode4_unicodeEscape _ h,
    Char.ofNat_toNat]
  cases readString rest with
  | none => rfl
  | some p => rfl

theorem readString_escapeChar (shortEscapes : Bool) (c : Char) (rest : List Char) :
    readString (escapeChar shortEscapes c ++ rest) =
      match readString rest with
      | some (s, after) => some (c :: s, after)
      | none => none := by
  unfold escapeChar
  split_ifs with h1 h2 h3 h4 h5 h6 h7
  · rcases h1 with rfl | rfl
    · exact readString_escape _ _ rest (by decide) rfl
    · exact readString_escape _ _ rest (by decide) rfl
  · subst h2; exact readString_escape _ _ rest (by decide) rfl
  · subst h3; exact readString_escape _ _ rest (by decide) rfl
  · subst h4; exact readString_escape _ _ rest (by decide) rfl
  · obtain ⟨_, rfl⟩ := h5; exact readString_escape _ _ rest (by decide) rfl
  · obtain ⟨_, rfl⟩ := h6; exact readString_escape _ _ rest (by decide) rfl
  · apply readString_unicode
    rcases h7 with h | rfl | rfl | rfl | h | h
    · omega
    · decide
    · decide
    · decide
    · omega
    · omega
  · push_neg at h1
    exact readString_cons_plain c rest h1.1 h1.2

theorem readString_escapeString (shortEscapes : Bool) (s rest : List Char) :
    readString (escapeString shortEscapes s ++ '\x22' :: rest) = some (s, rest) := by
  induction s with
  | nil =>
    rw [escapeString, List.nil_append, readString.eq_def]
    simp only [if_true]
  | cons c s ih =>
    rw [escapeString, List.append_assoc, readString_escapeChar, ih]

theorem digitValue_digit : ∀ d, d < 10 → digitValue (Char.ofNat (48 + d)) = some d := by decide

theorem digitValue_brace : digitValue '\x7d' = none := by decide
theorem digitValue_comma : digitValue ',' = none := by decide

theorem readDigits_decimalDigits (fuel n : Nat) (h : n < fuel) :
    ∃ k, ∀ rest acc,
      readDigits (decimalDigits fuel n ++ rest) acc = readDigits rest (acc * 10 ^ k + n) := by
  induction fuel generalizing n with
  | zero => omega
  | succ f ih =>
    unfold decimalDigits
    by_cases hn : n < 10
    · refine ⟨1, fun rest acc => ?_⟩
      rw [if_pos hn, List.singleton_append, readDigits, digitValue_digit n hn]
      simp only []
      congr 1
      omega
    · obtain ⟨k, hk⟩ := ih (n / 10) (by omega)
      refine ⟨k + 1, fun rest acc => ?_⟩
      rw [if_neg hn, List.append_assoc, hk, List.singleton_append, readDigits,
        digitValue_digit _ (Nat.mod_lt _ (by decide))]
      simp only []
      congr 1
      have := Nat.div_add_mod n 10
      rw [pow_succ]
      linarith [this]

theorem decimalDigits_head (fuel n : Nat) :
    ∃ c tl d, decimalDigits (fuel + 1) n = c :: tl ∧ digitValue c = some d := by
  induction fuel generalizing n with
  | zero =>
    unfold decimalDigits
    by_cases hn : n < 10
    · exact ⟨_, [], n, by rw [if_pos hn], digitValue_digit n hn⟩
    · refine ⟨_, [], n % 10, ?_, digitValue_digit _ (Nat.mod_lt _ (by decide))⟩
      rw [if_neg hn]
      rfl
  | succ f ih =>
    rw [decimalDigits]
    by_cases hn : n < 10
    · exact ⟨_, [], n, by rw [if_pos hn], digitValue_digit n hn⟩
    · obtain ⟨c, tl, d, h1, h2⟩ := ih (n / 10)
      refine ⟨c, tl ++ [Char.ofNat (48 + n % 10)], d, ?_, h2⟩
      rw [if_neg hn, h1]
      rfl

theorem jsonNumber_natCast (other : ℚ → String) (n : Nat) (h : n ≤ 2 ^ 53) :
    jsonNumber other (n : ℚ) = decimal n := by
  unfold jsonNumber
  rw [if_pos]
  · simp
  · refine ⟨by simp, by simp, ?_⟩
    simp only [Rat.num_natCast]
    exact_mod_cast h

theorem readValue_renderValue (shortEscapes : Bool) (other : ℚ → String) (v : JsonScalar)
    (hv : v.Plain) (d : Char) (rest : List Char) (hd : digitValue d = none) :
    readValue (renderValue shortEscapes other v ++ d :: rest) = some (v, d :: rest) := by
  cases v with
  | str s =>
    show readValue (('\x22' :: escapeString shortEscapes s.data ++ ['\x22']) ++ d :: rest) = _
    simp only [List.cons_append, List.append_assoc, List.nil_append]
    rw [readValue, if_pos rfl, readString_escapeString]
  | num x =>
    obtain ⟨n, hn, rfl⟩ := hv
    show readValue ((jsonNumber other (n : ℚ)).data ++ d :: rest) = _
    rw [jsonNumber_natCast other n hn]
    unfold decimal
    simp only []
    obtain ⟨c, tl, dv, h1, h2⟩ := decimalDigits_head n n
    obtain ⟨k, hk⟩ := readDigits_decimalDigits (n + 1) n (Nat.lt_succ_self n)
    have hread : readDigits (decimalDigits (n + 1) n ++ d :: rest) 0 = (n, d :: rest) := by
      rw [hk, readDigits, hd]
      simp
    have hne : c ≠ '\x22' := by
      intro hc
      have hq : digitValue '\x22' = none := by decide
      rw [hc, hq] at h2
      cases h2
    have hcons : decimalDigits (n + 1) n ++ d :: rest = c :: (tl ++ d :: rest) := by
      rw [h1]; rfl
    rw [hcons, readValue, if_neg hne, h2]
    simp only []
    rw [← hcons, hread]

theorem readMembers_renderMember_last (shortEscapes : Bool) (other : ℚ → String)
    (m : String × JsonScalar) (hm : m.2.Plain) (fuel : Nat) :
    readMembers (fuel + 1) (renderMember shortEscapes other m ++ ['\x7d']) = some [m] := by
  have hs : String.mk m.1.data = m.1 := rfl
  unfold renderMember
  simp only [List.cons_append, List.append_assoc]
  rw [readMembers]
  simp only [if_true, readString_escapeString,
    readValue_renderValue shortEscapes other m.2 hm '\x7d' [] digitValue_brace, hs]

theorem readMembers_renderMember_more (shortEscapes : Bool) (other : ℚ → String)
    (m : String × JsonScalar) (hm : m.2.Plain) (fuel : Nat) (rest : List Char) :
    readMembers (fuel + 1) (renderMember shortEscapes other m ++ ',' :: rest) =
      match readMembers fuel rest with
      | some ms => some (m :: ms)
      | none => none := by
  have hs : String.mk m.1.data = m.1 := rfl
  unfold renderMember
  simp only [List.cons_append, List.append_assoc]
  rw [readMembers]
  simp only [if_true, readString_escapeString,
    readValue_renderValue shortEscapes other m.2 hm ',' rest digitValue_comma, hs,
    if_neg (show ',' ≠ '\x7d' by decide)]

theorem readMembers_renderMembers (shortEscapes : Bool) (other : ℚ → String)
    (m : String × JsonScalar) (members : List (String × JsonScalar))
    (hP : ∀ x ∈ m :: members, x.2.Plain) (fuel : Nat) (hf : members.length < fuel) :
    readMembers fuel (renderMembers shortEscapes other (m :: members) ++ ['\x7d']) =
      some (m :: members) := by
  induction members generalizing m fuel with
  | nil =>
    obtain ⟨f, rfl⟩ : ∃ f, fuel = f + 1 := ⟨fuel - 1, by omega⟩
    exact readMembers_renderMember_last shortEscapes other m (hP m (List.mem_cons_self _ _)) f
  | cons m' members ih =>
    obtain ⟨f, rfl⟩ : ∃ f, fuel = f + 1 := ⟨fuel - 1, by omega⟩
    rw [renderMembers, List.append_assoc, List.cons_append,
      readMembers_renderMember_more shortEscapes other m (hP m (List.mem_cons_self _ _)),
      ih m' (fun x hx => hP x (List.mem_cons_of_mem _ hx)) f
        (by simp only [List.length_cons] at hf; omega)]

theorem renderMembers_length (shortEscapes : Bool) (other : ℚ → String)
    (members : List (String × JsonScalar)) :
    members.length ≤ (renderMembers shortEscapes other members).length := by
  induction members with
  | nil => simp
  | cons m members ih =>
    cases members with
    | nil => simp [renderMembers, renderMember]
    | cons m' members =>
      rw [renderMembers]
      simp only [List.length_append, List.length_cons] at ih ⊢
      omega

theorem readObject_renderObject (shortEscapes : Bool) (other : ℚ → String)
    (m : String × JsonScalar) (members : List (String × JsonScalar))
    (hP : ∀ x ∈ m :: members, x.2.Plain) :
    readObject (renderObject shortEscapes other (m :: members)) = some (m :: members) := by
  unfold readObject renderObject
  simp only [if_true]
  have hne : renderMembers shortEscapes other (m :: members) ++ ['\x7d'] ≠ ['\x7d'] := by
    intro h
    have h1 := congrArg List.length h
    have h2 := renderMembers_length shortEscapes other (m :: members)
    simp only [List.length_append, List.length_cons, List.length_nil] at h1 h2
    omega
  rw [if_neg hne]
  apply readMembers_renderMembers shortEscapes other m members hP
  have h2 := renderMembers_length shortEscapes other (m :: members)
  simp only [List.length_append, List.length_cons, List.length_nil] at h2 ⊢
  omega

/-! ### Failure leaves the zero value and sends nothing -/

theorem retrieveCPUInfo_failed {Data : Type} (env : Env Data)
    (h : (retrieveCPUInfo env).err ≠ none) : (retrieveCPUInfo env).val = "" := by
  unfold retrieveCPUInfo at h ⊢
  repeat' split
  all_goals simp_all

theorem retrieveMemoryInfo_failed {Data : Type} (env : Env Data)
    (h : (retrieveMemoryInfo env).err ≠ none) : (retrieveMemoryInfo env).val = 0 := by
  unfold retrieveMemoryInfo at h ⊢
  repeat' split
  all_goals simp_all

theorem retrieveStorageInfo_failed {Data : Type} (env : Env Data)
    (h : (retrieveStorageInfo env).err ≠ none) : (retrieveStorageInfo env).val = 0 := by
  unfold retrieveStorageInfo at h ⊢
  repeat' split
  all_goals simp_all

theorem retrieveHostInfo_failed {Data : Type} (env : Env Data)
    (h : (retrieveHostInfo env).err ≠ none) : (retrieveHostInfo env).val = ("", "") := by
  unfold retrieveHostInfo at h ⊢
  repeat' split
  all_goals simp_all

theorem retrieveManufacturer_failed {Data : Type} (env : Env Data)
    (h : (retrieveManufacturer env).err ≠ none) : (retrieveManufacturer env).val = "" := by
  cases hr : env.run ["wmic", "baseboard", "get", "manufacturer"] with
  | error e => rw [retrieveManufacturer_error env e hr]
  | ok out => rw [retrieveManufacturer_ok env out hr] at h; exact absurd rfl h

theorem retrieveSerialNumber_failed {Data : Type} (env : Env Data)
    (h : (retrieveSerialNumber env).err ≠ none) : (retrieveSerialNumber env).val = "" := by
  cases hr : env.run ["wmic", "bios", "get", "serialnumber"] with
  | error e => rw [retrieveSerialNumber_error env e hr]
  | ok out => rw [retrieveSerialNumber_ok env out hr] at h; exact absurd rfl h

theorem retrieveProductModel_failed {Data : Type} (env : Env Data)
    (h : (retrieveProductModel env).err ≠ none) : (retrieveProductModel env).val = "" := by
  cases hr : env.run ["wmic", "csproduct", "get", "name"] with
  | error e => rw [retrieveProductModel_error env e hr]
  | ok out => rw [retrieveProductModel_ok env out hr] at h; exact absurd rfl h

theorem retrieveCPUInfo_no_post {Data : Type} (env : Env Data) :
    (retrieveCPUInfo env).out.filter Event.isPost = [] := by
  unfold retrieveCPUInfo
  repeat' split
  all_goals rfl

theorem retrieveMemoryInfo_no_post {Data : Type} (env : Env Data) :
    (retrieveMemoryInfo env).out.filter Event.isPost = [] := by
  unfold retrieveMemoryInfo
  repeat' split
  all_goals rfl

theorem retrieveStorageInfo_no_post {Data : Type} (env : Env Data) :
    (retrieveStorageInfo env).out.filter Event.isPost = [] := by
  unfold retrieveStorageInfo
  repeat' split
  all_goals rfl

theorem retrieveHostInfo_no_post {Data : Type} (env : Env Data) :
    (retrieveHostInfo env).out.filter Event.isPost = [] := by
  unfold retrieveHostInfo
  repeat' split
  all_goals rfl

theorem retrieveManufacturer_no_post {Data : Type} (env : Env Data) :
    (retrieveManufacturer env).out.filter Event.isPost = [] := by
  cases hr : env.run ["wmic", "baseboard", "get", "manufacturer"] with
  | error e => rw [retrieveManufacturer_error env e hr]; rfl
  | ok out => rw [retrieveManufacturer_ok env out hr]; rfl

theorem retrieveSerialNumber_no_post {Data : Type} (env : Env Data) :
    (retrieveSerialNumber env).out.filter Event.isPost = [] := by
  cases hr : env.run ["wmic", "bios", "get", "serialnumber"] with
  | error e => rw [retrieveSerialNumber_error env e hr]; rfl
  | ok out => rw [retrieveSerialNumber_ok env out hr]; rfl

theorem retrieveProductModel_no_post {Data : Type} (env : Env Data) :
    (retrieveProductModel env).out.filter Event.isPost = [] := by
  cases hr : env.run ["wmic", "csproduct", "get", "name"] with
  | error e => rw [retrieveProductModel_error env e hr]; rfl
  | ok out => rw [retrieveProductModel_ok env out hr]; rfl

theorem sendRequest_posts {Data : Type} (env : Env Data) (body : String) :
    (sendRequest env body).out.filter Event.isPost =
      [.httpPost "http://localhost:8000/api/v1/asset/useragent" "application/json" body] := by
  have hw : ∀ l : List HttpRequest, (l.map Event.request).filter Event.isPost = [] := by
    intro l
    induction l with
    | nil => rfl
    | cons r l ih => simp [Event.isPost]
  unfold sendRequest
  simp only []
  split <;> simp [List.filter_cons, Event.isPost, hw, println]

theorem wireRequests_append (l₁ l₂ : List Event) :
    wireRequests (l₁ ++ l₂) = wireRequests l₁ ++ wireRequests l₂ := by
  induction l₁ with
  | nil => rfl
  | cons e l ih => cases e <;> simp [wireRequests, ih]

theorem wireRequests_map_request (l : List HttpRequest) :
    wireRequests (l.map Event.request) = l := by
  induction l with
  | nil => rfl
  | cons r l ih => simp [wireRequests, ih]

theorem sendRequest_wire {Data : Type} (env : Env Data) (body : String) :
    wireRequests (sendRequest env body).out =
      (httpPost env "http://localhost:8000/api/v1/asset/useragent" "application/json" body).2 := by
  unfold sendRequest
  simp only []
  split <;>
    simp [wireRequests, wireRequests_append, wireRequests_map_request, println]

theorem redirectBehavior_method (reqMethod : String) (resp : HttpResponse)
    (redirectMethod : String) (includeBody : Bool)
    (h : redirectBehavior reqMethod resp = some (redirectMethod, includeBody))
    (hm : redirectMethod = "POST") : includeBody = true := by
  unfold redirectBehavior at h
  split_ifs at h with h1 h2 h3
  · simp only [Option.some.injEq, Prod.mk.injEq] at h
    rw [← h.1] at hm
    exact absurd hm (by decide)
  · simp only [Option.some.injEq, Prod.mk.injEq] at h
    rw [h.1, hm] at h2
    exact absurd (show "POST" ≠ "GET" ∧ "POST" ≠ "HEAD" by decide) h2
  · simp only [Option.some.injEq, Prod.mk.injEq] at h
    exact h.2.symm

theorem clientStep_follow {Data : Type} (env : Env Data) (contentType body : String)
    (sent : Nat) (req : HttpRequest) (resp : HttpResponse) (next : HttpRequest)
    (h : clientStep env contentType body sent req = .follow resp next)
    (hm : next.Method = "POST") :
    next.Body = some body ∧ next.ContentType = some contentType := by
  unfold clientStep at h
  split at h
  · cases h
  · split at h
    · cases h
    · next hrb =>
      split at h
      · cases h
      · split at h
        · cases h
        · simp only [ClientStep.follow.injEq] at h
          obtain ⟨_, rfl⟩ := h
          have := redirectBehavior_method _ _ _ _ hrb hm
          simp [this]

theorem clientDo_wire {Data : Type} (env : Env Data) (contentType body : String)
    (remaining sent : Nat) (req : HttpRequest) :
    ∃ rest, (clientDo env contentType body remaining sent req).2 = req :: rest ∧
      rest.length ≤ remaining ∧
      ∀ r ∈ rest, r.Method = "POST" → r.Body = some body ∧ r.ContentType = some contentType := by
  induction remaining generalizing sent req with
  | zero =>
    refine ⟨[], ?_, le_refl _, by simp⟩
    unfold clientDo
    split <;> rfl
  | succ n ih =>
    unfold clientDo
    split
    · exact ⟨[], rfl, Nat.zero_le _, by simp⟩
    · next resp next hstep =>
      obtain ⟨rest, h1, h2, h3⟩ := ih (sent + 1) next
      refine ⟨next :: rest, ?_, ?_, ?_⟩
      · simp only []; rw [h1]
      · simpa using h2
      · intro r hr hm
        rcases List.mem_cons.1 hr with rfl | hr
        · exact clientStep_follow env contentType body sent req resp r hstep hm
        · exact h3 r hr hm

theorem clientDo_done {Data : Type} (env : Env Data) (contentType body : String)
    (remaining sent : Nat) (req : HttpRequest) (result : Except GoError HttpResponse)
    (h : clientStep env contentType body sent req = .done result) :
    clientDo env contentType body remaining sent req = (result, [req]) := by
  cases remaining <;> (unfold clientDo; rw [h])

theorem main_posts {Data : Type} (env : Env Data) :
    (main env).2.filter Event.isPost =
      match env.marshal (main env).1 with
      | .error _ => []
      | .ok data =>
        [.httpPost "http://localhost:8000/api/v1/asset/useragent" "application/json" data] := by
  have h : (main env).2 =
      (retrieveCPUInfo env).out ++ (retrieveMemoryInfo env).out ++ (retrieveStorageInfo env).out ++
        (retrieveProductModel env).out ++ (retrieveHostInfo env).out ++
        (retrieveSerialNumber env).out ++ (retrieveManufacturer env).out ++
        match env.marshal (main env).1 with
        | .error err => [println ["Error marshaling JSON:", err]]
        | .ok data => (sendRequest env data).out := rfl
  rw [h]
  simp only [List.filter_append, retrieveCPUInfo_no_post, retrieveMemoryInfo_no_post,
    retrieveStorageInfo_no_post, retrieveProductModel_no_post, retrieveHostInfo_no_post,
    retrieveSerialNumber_no_post, retrieveManufacturer_no_post, List.nil_append]
  cases env.marshal (main env).1 with
  | error e => rfl
  | ok data => exact sendRequest_posts env data

theorem reportedGB_zero : mathRound (bytesToGB (uint64 0)) = 0 := by
  have h := reportedGB_eq 0
  unfold reportedGB at h
  rw [h]
  have : float64Value (0 % 2 ^ 64) = 0 := by decide
  rw [this]; norm_num

theorem reportedGB_of_exact (b n : Nat) (hb : b ≤ 2 ^ 53) (hn : (b + 2 ^ 29) / 2 ^ 30 = n) :
    mathRound (bytesToGB (uint64 b)) = (n : ℚ) := by
  have h := reportedGB_eq b
  unfold reportedGB at h
  have hmod : b % 2 ^ 64 = b := Nat.mod_eq_of_lt (by norm_num at hb ⊢; omega)
  rw [h, hmod, float64Value_of_le b hb, hn]

theorem reportedGB_whole (v : Nat) :
    ∃ n : Nat, n ≤ 2 ^ 53 ∧ mathRound (bytesToGB (uint64 v)) = (n : ℚ) := by
  have h := reportedGB_eq v
  unfold reportedGB at h
  refine ⟨_, ?_, h⟩
  have hlt : v % 2 ^ 64 < 2 ^ 64 := Nat.mod_lt _ (by norm_num)
  have hnear := float64Value_near (v % 2 ^ 64) hlt
  norm_num at hlt hnear ⊢
  omega

theorem main_record {Data : Type} (env : Env Data) :
    (main env).1 =
      { CPUModel := (retrieveCPUInfo env).val
        TotalMemoryGB := mathRound (bytesToGB (uint64 (retrieveMemoryInfo env).val))
        TotalStorageGB := mathRound (bytesToGB (uint64 (retrieveStorageInfo env).val))
        ProductModel := (retrieveProductModel env).val
        OS := if (retrieveHostInfo env).val.1 = "windows" then "WINDOWS"
          else (retrieveHostInfo env).val.1
        OSVersion := (retrieveHostInfo env).val.2
        SerialNumber := (retrieveSerialNumber env).val
        Manufacturer := (retrieveManufacturer env).val } := rfl

theorem systemInfoMembers_eq (info : SystemInfo) :
    systemInfoMembers info =
      [("cpuModel", .str info.CPUModel), ("totalMemoryGB", .num info.TotalMemoryGB),
        ("totalStorageGB", .num info.TotalStorageGB), ("productModel", .str info.ProductModel),
        ("os", .str info.OS), ("osVersion", .str info.OSVersion),
        ("serialNumber", .str info.SerialNumber), ("manufacturer", .str info.Manufacturer)] := rfl

theorem readObject_document {Data : Type} (env : Env Data) (shortEscapes : Bool)
    (other : ℚ → String) :
    readObject (renderObject shortEscapes other (systemInfoMembers (main env).1)) =
      some (systemInfoMembers (main env).1) := by
  rw [systemInfoMembers_eq]
  apply readObject_renderObject
  intro x hx
  simp only [List.mem_cons, List.mem_singleton, List.not_mem_nil, or_false] at hx
  rcases hx with rfl | rfl | rfl | rfl | rfl | rfl | rfl | rfl
  · trivial
  · exact reportedGB_whole _
  · exact reportedGB_whole _
  · trivial
  · trivial
  · trivial
  · trivial
  · trivial

/-! ## The claims -/

/-- Sample values of the conversion `float64(uint64)`: exact up to `2 ^ 53`,
then to the nearest multiple of the spacing, ties to the even significand. -/
theorem float64Value_samples :
    float64Value 0 = 0 ∧ float64Value 1073741824 = 1073741824 ∧
      float64Value (2 ^ 53) = 2 ^ 53 ∧ float64Value (2 ^ 53 + 1) = 2 ^ 53 ∧
      float64Value (2 ^ 53 + 2) = 2 ^ 53 + 2 ∧ float64Value (2 ^ 53 + 3) = 2 ^ 53 + 4 ∧
      float64Value (2 ^ 54 + 3) = 2 ^ 54 + 4 ∧ float64Value (2 ^ 54 + 6) = 2 ^ 54 + 8 ∧
      float64Value (2 ^ 64 - 1) = 2 ^ 64 ∧ float64Value (2 ^ 64 - 1025) = 2 ^ 64 - 2048 := by
  decide

/-- C1 (as stated, refuted): at the byte count `2 ^ 53 + 2 ^ 29 - 1`, a
`uint64` that `float64` cannot hold, the conversion rounds up to
`2 ^ 53 + 2 ^ 29`, so `main` reports `8388609` gigabytes, while the byte count
divided by `1024 ^ 3` and rounded to nearest is `8388608`. -/
theorem reported_gigabytes_double_rounding :
    9007199791611903 < 2 ^ 64 ∧
      float64Value 9007199791611903 = 9007199791611904 ∧
      mathRound (bytesToGB 9007199791611903) = 8388609 ∧
      specRoundedGB 9007199791611903 = 8388608 := by
  have hv : float64Value 9007199791611903 = 9007199791611904 := by decide
  refine ⟨by decide, hv, ?_, ?_⟩
  · unfold bytesToGB float64OfUint64
    rw [mathRound_div_gigabyte, hv]
    norm_num
  · rw [specRoundedGB_eq]
    norm_num

/-- C1 (amended): for every unsigned 64-bit byte count `b` that `float64`
holds exactly, in particular every `b ≤ 2 ^ 53`, the gigabyte value `main`
reports, `math.Round(bytesToGB(b))`, is `b` divided by `1024 ^ 3` rounded to
the nearest integer, an exact half rounding up; for every other `b` the two
differ by at most `1`; `1073741824` gives `1` and `1610612736` gives `2`. -/
theorem reported_gigabytes_exact (b : Nat) (hb : b < 2 ^ 64) :
    ((b ≤ 2 ^ 53 ∨ float64OfUint64 b = (b : ℚ)) →
        mathRound (bytesToGB b) = ((specRoundedGB b : ℤ) : ℚ)) ∧
      |mathRound (bytesToGB b) - ((specRoundedGB b : ℤ) : ℚ)| ≤ 1 ∧
      mathRound (bytesToGB 1073741824) = 1 ∧
      mathRound (bytesToGB 1610612736) = 2 := by
  have key : ∀ n : Nat,
      mathRound (bytesToGB n) = (((float64Value n + 2 ^ 29) / 2 ^ 30 : Nat) : ℚ) := by
    intro n
    unfold bytesToGB float64OfUint64
    exact mathRound_div_gigabyte _
  refine ⟨?_, ?_, ?_, ?_⟩
  · intro hrep
    have hval : float64Value b = b := by
      rcases hrep with h | h
      · exact float64Value_of_le b h
      · unfold float64OfUint64 at h
        exact_mod_cast h
    rw [key, hval, specRoundedGB_eq, Int.cast_natCast]
  · rw [key, specRoundedGB_eq, Int.cast_natCast]
    have hn := float64Value_near b hb
    have h1 : (float64Value b + 2 ^ 29) / 2 ^ 30 ≤ (b + 2 ^ 29) / 2 ^ 30 + 1 := by
      norm_num at hn ⊢; omega
    have h2 : (b + 2 ^ 29) / 2 ^ 30 ≤ (float64Value b + 2 ^ 29) / 2 ^ 30 + 1 := by
      norm_num at hn ⊢; omega
    have h1q : (((float64Value b + 2 ^ 29) / 2 ^ 30 : Nat) : ℚ) ≤
        (((b + 2 ^ 29) / 2 ^ 30 : Nat) : ℚ) + 1 := by exact_mod_cast h1
    have h2q : (((b + 2 ^ 29) / 2 ^ 30 : Nat) : ℚ) ≤
        (((float64Value b + 2 ^ 29) / 2 ^ 30 : Nat) : ℚ) + 1 := by exact_mod_cast h2
    rw [abs_le]
    constructor <;> linarith
  · rw [key, float64Value_of_le _ (by decide)]; norm_num
  · rw [key, float64Value_of_le _ (by decide)]; norm_num

/-- Witness for C1: the amended statement at the byte count `1610612736`. -/
theorem reported_gigabytes_exact_witness :
    mathRound (bytesToGB 1610612736) = ((specRoundedGB 1610612736 : ℤ) : ℚ) ∧
      |mathRound (bytesToGB 9007199791611903) -
          ((specRoundedGB 9007199791611903 : ℤ) : ℚ)| ≤ 1 :=
  ⟨(reported_gigabytes_exact 1610612736 (by decide)).1 (Or.inl (by decide)),
    (reported_gigabytes_exact 9007199791611903 (by decide)).2.1⟩

/-- C10: the reported gigabyte value is monotone in the byte count: for
unsigned 64-bit byte counts `a ≤ b`,
`math.Round(bytesToGB(a)) ≤ math.Round(bytesToGB(b))`; the value is a
non-negative whole number; and it is `0` for the byte count `0`. -/
theorem reported_gigabytes_monotone (a b : Nat) (hab : a ≤ b) (hb : b < 2 ^ 64) :
    mathRound (bytesToGB a) ≤ mathRound (bytesToGB b) ∧
      (∃ n : Nat, mathRound (bytesToGB a) = (n : ℚ)) ∧
      (∃ n : Nat, mathRound (bytesToGB b) = (n : ℚ)) ∧
      mathRound (bytesToGB 0) = 0 ∧ reportedGB 0 = 0 := by
  have key : ∀ n : Nat,
      mathRound (bytesToGB n) = (((float64Value n + 2 ^ 29) / 2 ^ 30 : Nat) : ℚ) := by
    intro n
    unfold bytesToGB float64OfUint64
    exact mathRound_div_gigabyte _
  have hz : float64Value 0 = 0 := by decide
  refine ⟨?_, ⟨_, key a⟩, ⟨_, key b⟩, ?_, ?_⟩
  · rw [key a, key b]
    have hm := float64Value_mono a b hab hb
    have : (float64Value a + 2 ^ 29) / 2 ^ 30 ≤ (float64Value b + 2 ^ 29) / 2 ^ 30 :=
      Nat.div_le_div_right (Nat.add_le_add_right hm _)
    exact_mod_cast this
  · rw [key 0, hz]; norm_num
  · rw [reportedGB_eq]
    have : float64Value (0 % 2 ^ 64) = 0 := by decide
    rw [this]; norm_num

/-- Witness for C10: the byte counts of one gigabyte and of sixteen. -/
theorem reported_gigabytes_monotone_witness :
    mathRound (bytesToGB 1073741824) ≤ mathRound (bytesToGB 17179869184) ∧
      (∃ n : Nat, mathRound (bytesToGB 1073741824) = (n : ℚ)) ∧
      (∃ n : Nat, mathRound (bytesToGB 17179869184) = (n : ℚ)) ∧
      mathRound (bytesToGB 0) = 0 ∧ reportedGB 0 = 0 :=
  reported_gigabytes_monotone 1073741824 17179869184 (by decide) (by decide)

/-- C2: the OS field of the record `main` assembles is `"WINDOWS"` when
`retrieveHostInfo` returned `"windows"` and is the returned name itself for
every other value; `retrieveHostInfo` can return any name, and `"Windows"`,
`"linux"` and the empty name are left unchanged. -/
theorem os_name_normalisation {Data : Type} (env : Env Data) :
    ((retrieveHostInfo env).val.1 = "windows" → (main env).1.OS = "WINDOWS") ∧
      ((retrieveHostInfo env).val.1 ≠ "windows" →
        (main env).1.OS = (retrieveHostInfo env).val.1) ∧
      (∀ s v : String, (retrieveHostInfo (hostEnv s v)).val = (s, v)) ∧
      (main (hostEnv "windows" "10")).1.OS = "WINDOWS" ∧
      (main (hostEnv "Windows" "10")).1.OS = "Windows" ∧
      (main (hostEnv "linux" "6.1")).1.OS = "linux" ∧
      (main (hostEnv "" "")).1.OS = "" := by
  refine ⟨?_, ?_, ?_, by decide, by decide, by decide, by decide⟩
  · intro h
    show (if (retrieveHostInfo env).val.1 = "windows" then "WINDOWS"
      else (retrieveHostInfo env).val.1) = "WINDOWS"
    rw [if_pos h]
  · intro h
    show (if (retrieveHostInfo env).val.1 = "windows" then "WINDOWS"
      else (retrieveHostInfo env).val.1) = (retrieveHostInfo env).val.1
    rw [if_neg h]
  · intro s v
    rfl

/-- C3: for each of `retrieveManufacturer`, `retrieveSerialNumber` and
`retrieveProductModel` and every captured stdout text: when the command run
succeeds the extractor returns, with a nil error, the element at index 1 of
the text split on `"\n"` if the split has at least two elements and the empty
string otherwise (that is, the second line); when the run fails it returns the
empty string together with that error. -/
theorem command_extractors_second_line {Data : Type} (env : Env Data) :
    (∀ out, env.run ["wmic", "baseboard", "get", "manufacturer"] = .ok out →
        (retrieveManufacturer env).err = none ∧
          (retrieveManufacturer env).val = ((stringsSplit out '\n')[1]?).getD "" ∧
          (retrieveManufacturer env).val = secondLine out) ∧
      (∀ e, env.run ["wmic", "baseboard", "get", "manufacturer"] = .error e →
        (retrieveManufacturer env).val = "" ∧ (retrieveManufacturer env).err = some e) ∧
      (∀ out, env.run ["wmic", "bios", "get", "serialnumber"] = .ok out →
        (retrieveSerialNumber env).err = none ∧
          (retrieveSerialNumber env).val = ((stringsSplit out '\n')[1]?).getD "" ∧
          (retrieveSerialNumber env).val = secondLine out) ∧
      (∀ e, env.run ["wmic", "bios", "get", "serialnumber"] = .error e →
        (retrieveSerialNumber env).val = "" ∧ (retrieveSerialNumber env).err = some e) ∧
      (∀ out, env.run ["wmic", "csproduct", "get", "name"] = .ok out →
        (retrieveProductModel env).err = none ∧
          (retrieveProductModel env).val = ((stringsSplit out '\n')[1]?).getD "" ∧
          (retrieveProductModel env).val = secondLine out) ∧
      (∀ e, env.run ["wmic", "csproduct", "get", "name"] = .error e →
        (retrieveProductModel env).val = "" ∧ (retrieveProductModel env).err = some e) ∧
      (∀ s : String, (2 ≤ (stringsSplit s '\n').length ↔ '\n' ∈ s.data)) := by
  refine ⟨?_, ?_, ?_, ?_, ?_, ?_, ?_⟩
  · intro out h
    rw [retrieveManufacturer_ok env out h, stringsSplit_get_one]
    exact ⟨rfl, rfl, rfl⟩
  · intro e h
    rw [retrieveManufacturer_error env e h]
    exact ⟨rfl, rfl⟩
  · intro out h
    rw [retrieveSerialNumber_ok env out h, stringsSplit_get_one]
    exact ⟨rfl, rfl, rfl⟩
  · intro e h
    rw [retrieveSerialNumber_error env e h]
    exact ⟨rfl, rfl⟩
  · intro out h
    rw [retrieveProductModel_ok env out h, stringsSplit_get_one]
    exact ⟨rfl, rfl, rfl⟩
  · intro e h
    rw [retrieveProductModel_error env e h]
    exact ⟨rfl, rfl⟩
  · intro s
    unfold stringsSplit
    rw [List.length_map]
    exact splitOnSep_length _ _

/-- C9: the external-command extractors do not trim the line they return: on
the CRLF-terminated output `"Manufacturer  \r\nDell Inc.  \r\n"` each of them
returns `"Dell Inc.  \r"`, trailing blanks and carriage return included; the
returned value never contains a line feed, every character of it is a
character of the output, and any character other than the line feed occurs in
the value returned for some output. -/
theorem command_extractors_untrimmed :
    (retrieveManufacturer (commandEnv "Manufacturer  \r\nDell Inc.  \r\n")).val =
        "Dell Inc.  \r" ∧
      (retrieveSerialNumber (commandEnv "Manufacturer  \r\nDell Inc.  \r\n")).val =
        "Dell Inc.  \r" ∧
      (retrieveProductModel (commandEnv "Manufacturer  \r\nDell Inc.  \r\n")).val =
        "Dell Inc.  \r" ∧
      (retrieveManufacturer (commandEnv "Manufacturer  \r\nDell Inc.  \r\n")).err = none ∧
      (∀ out : String,
        '\n' ∉ (retrieveManufacturer (commandEnv out)).val.data ∧
          '\n' ∉ (retrieveSerialNumber (commandEnv out)).val.data ∧
          '\n' ∉ (retrieveProductModel (commandEnv out)).val.data) ∧
      (∀ (out : String) (c : Char),
        (c ∈ (retrieveManufacturer (commandEnv out)).val.data → c ∈ out.data) ∧
          (c ∈ (retrieveSerialNumber (commandEnv out)).val.data → c ∈ out.data) ∧
          (c ∈ (retrieveProductModel (commandEnv out)).val.data → c ∈ out.data)) ∧
      (∀ c : Char, c ≠ '\n' → ∃ out : String,
        c ∈ (retrieveManufacturer (commandEnv out)).val.data ∧
          c ∈ (retrieveSerialNumber (commandEnv out)).val.data ∧
          c ∈ (retrieveProductModel (commandEnv out)).val.data) := by
  have hm : ∀ out : String, (retrieveManufacturer (commandEnv out)).val = secondLine out :=
    fun out => by rw [retrieveManufacturer_ok (commandEnv out) out rfl]
  have hs : ∀ out : String, (retrieveSerialNumber (commandEnv out)).val = secondLine out :=
    fun out => by rw [retrieveSerialNumber_ok (commandEnv out) out rfl]
  have hp : ∀ out : String, (retrieveProductModel (commandEnv out)).val = secondLine out :=
    fun out => by rw [retrieveProductModel_ok (commandEnv out) out rfl]
  refine ⟨by decide, by decide, by decide, by decide, ?_, ?_, ?_⟩
  · intro out
    rw [hm, hs, hp]
    exact ⟨secondLine_no_line_feed out, secondLine_no_line_feed out,
      secondLine_no_line_feed out⟩
  · intro out c
    rw [hm, hs, hp]
    exact ⟨secondLine_subset out c, secondLine_subset out c, secondLine_subset out c⟩
  · intro c hc
    refine ⟨String.mk ['\n', c], ?_⟩
    rw [hm, hs, hp, secondLine_pair c hc]
    simp

/-- C8: `extractCPUModelName` returns the `modelName` of the first decoded
record with a nil error when the decoded list is non-empty (later records are
ignored), the empty string with the error `no CPU information found` when the
list is empty, and the empty string with the decode error when the text does
not decode. -/
theorem extractCPUModelName_first_record {Data : Type} (env : Env Data) (cpuInfoJSON : String) :
    (∀ first rest, env.unmarshalCPUInfo cpuInfoJSON = .ok (first :: rest) →
        extractCPUModelName env cpuInfoJSON = (first.ModelName, none)) ∧
      (env.unmarshalCPUInfo cpuInfoJSON = .ok [] →
        extractCPUModelName env cpuInfoJSON = ("", some "no CPU information found")) ∧
      (∀ e, env.unmarshalCPUInfo cpuInfoJSON = .error e →
        extractCPUModelName env cpuInfoJSON = ("", some e)) := by
  refine ⟨?_, ?_, ?_⟩
  · intro first rest h
    unfold extractCPUModelName
    rw [h]
  · intro h
    unfold extractCPUModelName
    rw [h]
  · intro e h
    unfold extractCPUModelName
    rw [h]

/-- C4: for each fact extractor (`retrieveCPUInfo`, `retrieveMemoryInfo`,
`retrieveStorageInfo`, `retrieveHostInfo`): whenever the provider call fails,
the JSON conversion fails, the JSON does not decode into the local shape, or
(for CPU) the decoded list is empty, the extractor returns the empty string(s)
or the zero byte count together with an error value. -/
theorem fact_extractors_fail_to_zero {Data : Type} (env : Env Data) :
    ((∀ e, env.cpuInfo = .error e →
        (retrieveCPUInfo env).val = "" ∧ (retrieveCPUInfo env).err = some e) ∧
      (∀ d e, env.cpuInfo = .ok d → env.marshalIndent d "" "  " = .error e →
        (retrieveCPUInfo env).val = "" ∧ (retrieveCPUInfo env).err = some e) ∧
      (∀ d js e, env.cpuInfo = .ok d → env.marshalIndent d "" "  " = .ok js →
        env.unmarshalCPUInfo js = .error e →
        (retrieveCPUInfo env).val = "" ∧ (retrieveCPUInfo env).err = some e) ∧
      (∀ d js, env.cpuInfo = .ok d → env.marshalIndent d "" "  " = .ok js →
        env.unmarshalCPUInfo js = .ok [] →
        (retrieveCPUInfo env).val = "" ∧
          (retrieveCPUInfo env).err = some "no CPU information found")) ∧
    ((∀ e, env.virtualMemory = .error e →
        (retrieveMemoryInfo env).val = 0 ∧ (retrieveMemoryInfo env).err = some e) ∧
      (∀ d e, env.virtualMemory = .ok d → env.marshalIndent d "" "  " = .error e →
        (retrieveMemoryInfo env).val = 0 ∧ (retrieveMemoryInfo env).err = some e) ∧
      (∀ d js e, env.virtualMemory = .ok d → env.marshalIndent d "" "  " = .ok js →
        env.unmarshalMemoryInfo js = .error e →
        (retrieveMemoryInfo env).val = 0 ∧ (retrieveMemoryInfo env).err = some e)) ∧
    ((∀ e, env.diskUsage "/" = .error e →
        (retrieveStorageInfo env).val = 0 ∧ (retrieveStorageInfo env).err = some e) ∧
      (∀ d e, env.diskUsage "/" = .ok d → env.marshalIndent d "" "  " = .error e →
        (retrieveStorageInfo env).val = 0 ∧ (retrieveStorageInfo env).err = some e) ∧
      (∀ d js e, env.diskUsage "/" = .ok d → env.marshalIndent d "" "  " = .ok js →
        env.unmarshalStorageInfo js = .error e →
        (retrieveStorageInfo env).val = 0 ∧ (retrieveStorageInfo env).err = some e)) ∧
    ((∀ e, env.hostInfo = .error e →
        (retrieveHostInfo env).val = ("", "") ∧ (retrieveHostInfo env).err = some e) ∧
      (∀ d e, env.hostInfo = .ok d → env.marshalIndent d "" "  " = .error e →
        (retrieveHostInfo env).val = ("", "") ∧ (retrieveHostInfo env).err = some e) ∧
      (∀ d js e, env.hostInfo = .ok d → env.marshalIndent d "" "  " = .ok js →
        env.unmarshalHostInfo js = .error e →
        (retrieveHostInfo env).val = ("", "") ∧ (retrieveHostInfo env).err = some e)) := by
  refine ⟨⟨?_, ?_, ?_, ?_⟩, ⟨?_, ?_, ?_⟩, ⟨?_, ?_, ?_⟩, ⟨?_, ?_, ?_⟩⟩
  · intro e h1
    simp [retrieveCPUInfo, h1]
  · intro d e h1 h2
    simp [retrieveCPUInfo, infoToString, h1, h2]
  · intro d js e h1 h2 h3
    simp [retrieveCPUInfo, infoToString, extractCPUModelName, h1, h2, h3]
  · intro d js h1 h2 h3
    simp [retrieveCPUInfo, infoToString, extractCPUModelName, h1, h2, h3]
  · intro e h1
    simp [retrieveMemoryInfo, h1]
  · intro d e h1 h2
    simp [retrieveMemoryInfo, infoToString, h1, h2]
  · intro d js e h1 h2 h3
    simp [retrieveMemoryInfo, infoToString, h1, h2, h3]
  · intro e h1
    simp [retrieveStorageInfo, h1]
  · intro d e h1 h2
    simp [retrieveStorageInfo, infoToString, h1, h2]
  · intro d js e h1 h2 h3
    simp [retrieveStorageInfo, infoToString, h1, h2, h3]
  · intro e h1
    simp [retrieveHostInfo, h1]
  · intro d e h1 h2
    simp [retrieveHostInfo, infoToString, h1, h2]
  · intro d js e h1 h2 h3
    simp [retrieveHostInfo, infoToString, h1, h2, h3]

/-- C7 (as stated, refuted): a server that answers every request with status
307 and a `Location` gets ten POSTs of the body from one call of
`sendRequest`, which then returns a non-nil error although every request was
answered; a server that redirects once gets two POSTs. -/
theorem sendRequest_redirect_reposts :
    (∀ n req, ∃ resp, redirectLoopEnv.roundTrip n req = .ok resp) ∧
      wireRequests (sendRequest redirectLoopEnv "\x7b\x7d").out =
        List.replicate 10
          { Method := "POST", URL := "http://localhost:8000/api/v1/asset/useragent",
            ContentType := some "application/json", Body := some "\x7b\x7d" } ∧
      (sendRequest redirectLoopEnv "\x7b\x7d").err =
        some ("Post \"http://localhost:8000/api/v1/asset/useragent\": " ++
          "stopped after 10 redirects") ∧
      wireRequests (sendRequest redirectOnceEnv "\x7b\x7d").out =
        List.replicate 2
          { Method := "POST", URL := "http://localhost:8000/api/v1/asset/useragent",
            ContentType := some "application/json", Body := some "\x7b\x7d" } ∧
      (sendRequest redirectOnceEnv "\x7b\x7d").err = none := by
  refine ⟨fun _ _ => ⟨_, rfl⟩, by decide, by decide, by decide, by decide⟩

/-- C7 (amended): for every request body, `sendRequest` calls `http.Post`
exactly once, with the URL `http://localhost:8000/api/v1/asset/useragent`,
content type `application/json` and that body, and does not retry. The first
request on the wire is a POST of that body with that content type to that
URL; the default client follows redirects, so up to nine more requests may
follow, and each of them that is a POST carries the same body and content
type. When the first answer is an error, or a response that is no redirect
(a status other than 301, 302, 303, 307 and 308, or no `Location`), the POST
is the only request. `sendRequest` returns the error of `http.Post` when
there is one, and nil for every response `http.Post` returns, whatever its
status. -/
theorem sendRequest_follows_redirects {Data : Type} (env : Env Data) (body : String) :
    (sendRequest env body).out.filter Event.isPost =
        [.httpPost "http://localhost:8000/api/v1/asset/useragent" "application/json" body] ∧
      (∃ rest,
        wireRequests (sendRequest env body).out =
            { Method := "POST", URL := "http://localhost:8000/api/v1/asset/useragent",
              ContentType := some "application/json", Body := some body } :: rest ∧
          rest.length ≤ 9 ∧
          ∀ r ∈ rest, r.Method = "POST" →
            r.Body = some body ∧ r.ContentType = some "application/json") ∧
      (∀ resp,
        env.roundTrip 0
            { Method := "POST", URL := "http://localhost:8000/api/v1/asset/useragent",
              ContentType := some "application/json", Body := some body } = .ok resp →
          ((resp.StatusCode ≠ 301 ∧ resp.StatusCode ≠ 302 ∧ resp.StatusCode ≠ 303 ∧
              resp.StatusCode ≠ 307 ∧ resp.StatusCode ≠ 308) ∨ resp.Location = "") →
          (sendRequest env body).err = none ∧
            (sendRequest env body).out =
              [.httpPost "http://localhost:8000/api/v1/asset/useragent" "application/json" body,
                .request
                  { Method := "POST", URL := "http://localhost:8000/api/v1/asset/useragent",
                    ContentType := some "application/json", Body := some body },
                println ["Response status:", resp.Status]]) ∧
      (∀ e,
        env.roundTrip 0
            { Method := "POST", URL := "http://localhost:8000/api/v1/asset/useragent",
              ContentType := some "application/json", Body := some body } = .error e →
          (sendRequest env body).err =
              some (urlError env "Post" "http://localhost:8000/api/v1/asset/useragent" e) ∧
            wireRequests (sendRequest env body).out =
              [{ Method := "POST", URL := "http://localhost:8000/api/v1/asset/useragent",
                 ContentType := some "application/json", Body := some body }]) ∧
      (∀ resp,
        (httpPost env "http://localhost:8000/api/v1/asset/useragent" "application/json"
            body).1 = .ok resp →
          (sendRequest env body).err = none) ∧
      (∀ e,
        (httpPost env "http://localhost:8000/api/v1/asset/useragent" "application/json"
            body).1 = .error e →
          (sendRequest env body).err = some e) := by
  refine ⟨sendRequest_posts env body, ?_, ?_, ?_, ?_, ?_⟩
  · rw [sendRequest_wire]
    exact clientDo_wire env _ _ 9 0 _
  · intro resp hresp hstatus
    have hstep : clientStep env "application/json" body 0
        { Method := "POST", URL := "http://localhost:8000/api/v1/asset/useragent",
          ContentType := some "application/json", Body := some body } = .done (.ok resp) := by
      unfold clientStep
      rw [hresp]
      simp only []
      rcases hstatus with ⟨h1, h2, h3, h4, h5⟩ | hloc
      · have : redirectBehavior "POST" resp = none := by
          unfold redirectBehavior
          simp [h1, h2, h3, h4, h5]
        rw [this]
      · split
        · rfl
        · rw [if_pos hloc]
    have hpost := clientDo_done env "application/json" body 9 0 _ _ hstep
    unfold sendRequest httpPost
    simp only []
    rw [hpost]
    exact ⟨rfl, rfl⟩
  · intro e he
    have hstep : clientStep env "application/json" body 0
        { Method := "POST", URL := "http://localhost:8000/api/v1/asset/useragent",
          ContentType := some "application/json", Body := some body } =
        .done (.error (urlError env "Post" "http://localhost:8000/api/v1/asset/useragent" e)) := by
      unfold clientStep
      rw [he]
    have hpost := clientDo_done env "application/json" body 9 0 _ _ hstep
    refine ⟨?_, ?_⟩
    · unfold sendRequest httpPost
      simp only []
      rw [hpost]
    · rw [sendRequest_wire]
      unfold httpPost
      rw [hpost]
  · intro resp h
    unfold sendRequest
    simp only []
    rw [h]
  · intro e h
    unfold sendRequest
    simp only []
    rw [h]

/-- Witness for C7: a request answered with status 500 is the only request
and `sendRequest` returns nil; a refused connection returns the error. -/
theorem sendRequest_follows_redirects_witness :
    ((sendRequest reportingEnv "\x7b\x7d").err = none ∧
        (sendRequest reportingEnv "\x7b\x7d").out =
          [.httpPost "http://localhost:8000/api/v1/asset/useragent" "application/json"
              "\x7b\x7d",
            .request
              { Method := "POST", URL := "http://localhost:8000/api/v1/asset/useragent",
                ContentType := some "application/json", Body := some "\x7b\x7d" },
            println ["Response status:", "500 Internal Server Error"]]) ∧
      (sendRequest failingEnv "\x7b\x7d").err =
        some ("Post \"http://localhost:8000/api/v1/asset/useragent\": " ++
          "dial tcp 127.0.0.1:8000: connect: connection refused") :=
  ⟨(sendRequest_follows_redirects reportingEnv "\x7b\x7d").2.2.1 _ rfl (Or.inl (by decide)),
    ((sendRequest_follows_redirects failingEnv "\x7b\x7d").2.2.2.1 _ rfl).1⟩

/-- C6: whatever errors the extractors return, `main` assembles the record
from the values they returned, and it calls `sendRequest` (one POST of the
serialised record) exactly once if and only if serialising the record
succeeds; on a serialisation error, and only then, it sends nothing. -/
theorem main_sends_iff_marshalled {Data : Type} (env : Env Data) :
    (main env).1 =
        { CPUModel := (retrieveCPUInfo env).val
          TotalMemoryGB := mathRound (bytesToGB (uint64 (retrieveMemoryInfo env).val))
          TotalStorageGB := mathRound (bytesToGB (uint64 (retrieveStorageInfo env).val))
          ProductModel := (retrieveProductModel env).val
          OS := if (retrieveHostInfo env).val.1 = "windows" then "WINDOWS"
            else (retrieveHostInfo env).val.1
          OSVersion := (retrieveHostInfo env).val.2
          SerialNumber := (retrieveSerialNumber env).val
          Manufacturer := (retrieveManufacturer env).val } ∧
      (∀ data, env.marshal (main env).1 = .ok data →
        (main env).2.filter Event.isPost =
          [.httpPost "http://localhost:8000/api/v1/asset/useragent" "application/json" data]) ∧
      (∀ e, env.marshal (main env).1 = .error e →
        (main env).2.filter Event.isPost = []) ∧
      (((main env).2.filter Event.isPost).length = 1 ↔
        ∃ data, env.marshal (main env).1 = .ok data) ∧
      (((main env).2.filter Event.isPost).length = 0 ↔
        ∃ e, env.marshal (main env).1 = .error e) := by
  refine ⟨rfl, ?_, ?_, ?_, ?_⟩
  · intro data h
    rw [main_posts, h]
  · intro e h
    rw [main_posts, h]
  · rw [main_posts]
    cases env.marshal (main env).1 <;> simp
  · rw [main_posts]
    cases env.marshal (main env).1 <;> simp

/-- C5: for every combination of extractor outcomes, the JSON document `main`
serialises from the `SystemInfo` record and posts is an object whose members
are, in this order, the eight keys `cpuModel`, `totalMemoryGB`,
`totalStorageGB`, `productModel`, `os`, `osVersion`, `serialNumber` and
`manufacturer`, each with the value the extractor returned; the key of an
extractor that returned an error is present with the empty string or `0`. -/
theorem json_document_has_all_keys {Data : Type} (env : Env Data) (shortEscapes : Bool)
    (other : ℚ → String) :
    ∃ doc : String,
      (main (env.withJsonMarshal shortEscapes other)).2.filter Event.isPost =
          [.httpPost "http://localhost:8000/api/v1/asset/useragent" "application/json" doc] ∧
        jsonMarshal shortEscapes other (main env).1 = .ok doc ∧
        readObject doc =
          some
            [("cpuModel", .str (retrieveCPUInfo env).val),
              ("totalMemoryGB",
                .num (mathRound (bytesToGB (uint64 (retrieveMemoryInfo env).val)))),
              ("totalStorageGB",
                .num (mathRound (bytesToGB (uint64 (retrieveStorageInfo env).val)))),
              ("productModel", .str (retrieveProductModel env).val),
              ("os",
                .str (if (retrieveHostInfo env).val.1 = "windows" then "WINDOWS"
                  else (retrieveHostInfo env).val.1)),
              ("osVersion", .str (retrieveHostInfo env).val.2),
              ("serialNumber", .str (retrieveSerialNumber env).val),
              ("manufacturer", .str (retrieveManufacturer env).val)] ∧
        (readObject doc).map (List.map Prod.fst) =
          some
            ["cpuModel", "totalMemoryGB", "totalStorageGB", "productModel", "os", "osVersion",
              "serialNumber", "manufacturer"] ∧
        ((retrieveCPUInfo env).err ≠ none →
          (readObject doc).bind (List.lookup "cpuModel") = some (.str "")) ∧
        ((retrieveMemoryInfo env).err ≠ none →
          (readObject doc).bind (List.lookup "totalMemoryGB") = some (.num 0)) ∧
        ((retrieveStorageInfo env).err ≠ none →
          (readObject doc).bind (List.lookup "totalStorageGB") = some (.num 0)) ∧
        ((retrieveProductModel env).err ≠ none →
          (readObject doc).bind (List.lookup "productModel") = some (.str "")) ∧
        ((retrieveHostInfo env).err ≠ none →
          (readObject doc).bind (List.lookup "os") = some (.str "") ∧
            (readObject doc).bind (List.lookup "osVersion") = some (.str "")) ∧
        ((retrieveSerialNumber env).err ≠ none →
          (readObject doc).bind (List.lookup "serialNumber") = some (.str "")) ∧
        ((retrieveManufacturer env).err ≠ none →
          (readObject doc).bind (List.lookup "manufacturer") = some (.str "")) := by
  obtain ⟨doc, hdoc⟩ :
      ∃ doc, doc = renderObject shortEscapes other (systemInfoMembers (main env).1) := ⟨_, rfl⟩
  have hread : readObject doc = some (systemInfoMembers (main env).1) := by
    rw [hdoc, readObject_document]
  rw [systemInfoMembers_eq (main env).1, main_record] at hread
  simp only [] at hread
  refine ⟨doc, ?_, ?_, hread, ?_, ?_, ?_, ?_, ?_, ?_, ?_, ?_⟩
  · rw [main_posts, hdoc]
    rfl
  · rw [hdoc]
    rfl
  · rw [hread]; rfl
  · intro h
    rw [hread, retrieveCPUInfo_failed env h]
    rfl
  · intro h
    rw [hread, retrieveMemoryInfo_failed env h, reportedGB_zero]
    rfl
  · intro h
    rw [hread, retrieveStorageInfo_failed env h, reportedGB_zero]
    rfl
  · intro h
    rw [hread, retrieveProductModel_failed env h]
    rfl
  · intro h
    rw [hread, retrieveHostInfo_failed env h]
    exact ⟨rfl, rfl⟩
  · intro h
    rw [hread, retrieveSerialNumber_failed env h]
    rfl
  · intro h
    rw [hread, retrieveManufacturer_failed env h]
    rfl

/-- Witness for C5: the document posted for a Windows host, and the document
posted when every extractor fails. -/
theorem json_document_has_all_keys_witness :
    (main inventoryEnv).2.filter Event.isPost =
        [.httpPost "http://localhost:8000/api/v1/asset/useragent" "application/json"
          ("\x7b\"cpuModel\":\"Intel(R) Core(TM) i5\"," ++
            "\"totalMemoryGB\":16,\"totalStorageGB\":466," ++
            "\"productModel\":\"Latitude 5490  \\r\",\"os\":\"WINDOWS\"," ++
            "\"osVersion\":\"10.0.19045\",\"serialNumber\":\"PF2ABCDE  \\r\"," ++
            "\"manufacturer\":\"Dell Inc.  \\r\"\x7d")] ∧
      (main reportingEnv).2.filter Event.isPost =
        [.httpPost "http://localhost:8000/api/v1/asset/useragent" "application/json"
          ("\x7b\"cpuModel\":\"\",\"totalMemoryGB\":0,\"totalStorageGB\":0," ++
            "\"productModel\":\"\",\"os\":\"\",\"osVersion\":\"\",\"serialNumber\":\"\"," ++
            "\"manufacturer\":\"\"\x7d")] ∧
      (∃ doc : String,
        (main reportingEnv).2.filter Event.isPost =
            [.httpPost "http://localhost:8000/api/v1/asset/useragent" "application/json" doc] ∧
          (readObject doc).map (List.map Prod.fst) =
            some
              ["cpuModel", "totalMemoryGB", "totalStorageGB", "productModel", "os",
                "osVersion", "serialNumber", "manufacturer"] ∧
          (readObject doc).bind (List.lookup "cpuModel") = some (.str "") ∧
          (readObject doc).bind (List.lookup "totalMemoryGB") = some (.num 0)) := by
  have hnum : ∀ (key : String) (n : Nat), n ≤ 2 ^ 53 →
      renderMember true noOtherNumber (key, .num (n : ℚ)) =
        '\x22' :: escapeString true key.data ++ '\x22' :: ':' :: (decimal n).data := by
    intro key n hn
    simp only [renderMember, renderValue, jsonNumber_natCast noOtherNumber n hn]
  have hzero : mathRound (bytesToGB (uint64 0)) = ((0 : Nat) : ℚ) :=
    reportedGB_of_exact _ _ (by decide) (by decide)
  refine ⟨?_, ?_, ?_⟩
  · have hmem : mathRound (bytesToGB (uint64 17179869184)) = ((16 : Nat) : ℚ) :=
      reportedGB_of_exact _ _ (by decide) (by decide)
    have hdisk : mathRound (bytesToGB (uint64 500107862016)) = ((466 : Nat) : ℚ) :=
      reportedGB_of_exact _ _ (by decide) (by decide)
    have hrec : (main inventoryEnv).1 =
        { CPUModel := "Intel(R) Core(TM) i5"
          TotalMemoryGB := ((16 : Nat) : ℚ)
          TotalStorageGB := ((466 : Nat) : ℚ)
          ProductModel := "Latitude 5490  \r"
          OS := "WINDOWS"
          OSVersion := "10.0.19045"
          SerialNumber := "PF2ABCDE  \r"
          Manufacturer := "Dell Inc.  \r" } := by
      rw [main_record, ← hmem, ← hdisk]
      have h1 : (retrieveCPUInfo inventoryEnv).val = "Intel(R) Core(TM) i5" := by decide
      have h2 : (retrieveMemoryInfo inventoryEnv).val = 17179869184 := by decide
      have h3 : (retrieveStorageInfo inventoryEnv).val = 500107862016 := by decide
      have h4 : (retrieveProductModel inventoryEnv).val = "Latitude 5490  \r" := by decide
      have h5 : (retrieveHostInfo inventoryEnv).val = ("windows", "10.0.19045") := by decide
      have h6 : (retrieveSerialNumber inventoryEnv).val = "PF2ABCDE  \r" := by decide
      have h7 : (retrieveManufacturer inventoryEnv).val = "Dell Inc.  \r" := by decide
      rw [h1, h2, h3, h4, h5, h6, h7]
      rfl
    have m1 : renderMember true noOtherNumber ("cpuModel", .str "Intel(R) Core(TM) i5") =
        "\"cpuModel\":\"Intel(R) Core(TM) i5\"".data := by decide
    have m2 : renderMember true noOtherNumber ("totalMemoryGB", .num ((16 : Nat) : ℚ)) =
        "\"totalMemoryGB\":16".data := by rw [hnum _ _ (by decide)]; decide
    have m3 : renderMember true noOtherNumber ("totalStorageGB", .num ((466 : Nat) : ℚ)) =
        "\"totalStorageGB\":466".data := by rw [hnum _ _ (by decide)]; decide
    have m4 : renderMember true noOtherNumber ("productModel", .str "Latitude 5490  \r") =
        "\"productModel\":\"Latitude 5490  \\r\"".data := by decide
    have m5 : renderMember true noOtherNumber ("os", .str "WINDOWS") =
        "\"os\":\"WINDOWS\"".data := by decide
    have m6 : renderMember true noOtherNumber ("osVersion", .str "10.0.19045") =
        "\"osVersion\":\"10.0.19045\"".data := by decide
    have m7 : renderMember true noOtherNumber ("serialNumber", .str "PF2ABCDE  \r") =
        "\"serialNumber\":\"PF2ABCDE  \\r\"".data := by decide
    have m8 : renderMember true noOtherNumber ("manufacturer", .str "Dell Inc.  \r") =
        "\"manufacturer\":\"Dell Inc.  \\r\"".data := by decide
    have hdoc : inventoryEnv.marshal (main inventoryEnv).1 =
        .ok ("\x7b\"cpuModel\":\"Intel(R) Core(TM) i5\"," ++
            "\"totalMemoryGB\":16,\"totalStorageGB\":466," ++
            "\"productModel\":\"Latitude 5490  \\r\",\"os\":\"WINDOWS\"," ++
            "\"osVersion\":\"10.0.19045\",\"serialNumber\":\"PF2ABCDE  \\r\"," ++
            "\"manufacturer\":\"Dell Inc.  \\r\"\x7d") := by
      rw [hrec]
      show jsonMarshal true noOtherNumber _ = _
      unfold jsonMarshal
      rw [systemInfoMembers_eq]
      simp only [renderObject, renderMembers, m1, m2, m3, m4, m5, m6, m7, m8]
      rfl
    rw [main_posts, hdoc]
  · have hrec : (main reportingEnv).1 =
        { CPUModel := "", TotalMemoryGB := ((0 : Nat) : ℚ), TotalStorageGB := ((0 : Nat) : ℚ),
          ProductModel := "", OS := "", OSVersion := "", SerialNumber := "",
          Manufacturer := "" } := by
      rw [main_record, ← hzero]
      rfl
    have m1 : renderMember true noOtherNumber ("cpuModel", .str "") =
        "\"cpuModel\":\"\"".data := by decide
    have m2 : renderMember true noOtherNumber ("totalMemoryGB", .num ((0 : Nat) : ℚ)) =
        "\"totalMemoryGB\":0".data := by rw [hnum _ _ (by decide)]; decide
    have m3 : renderMember true noOtherNumber ("totalStorageGB", .num ((0 : Nat) : ℚ)) =
        "\"totalStorageGB\":0".data := by rw [hnum _ _ (by decide)]; decide
    have m4 : renderMember true noOtherNumber ("productModel", .str "") =
        "\"productModel\":\"\"".data := by decide
    have m5 : renderMember true noOtherNumber ("os", .str "") = "\"os\":\"\"".data := by decide
    have m6 : renderMember true noOtherNumber ("osVersion", .str "") =
        "\"osVersion\":\"\"".data := by decide
    have m7 : renderMember true noOtherNumber ("serialNumber", .str "") =
        "\"serialNumber\":\"\"".data := by decide
    have m8 : renderMember true noOtherNumber ("manufacturer", .str "") =
        "\"manufacturer\":\"\"".data := by decide
    have hdoc : reportingEnv.marshal (main reportingEnv).1 =
        .ok ("\x7b\"cpuModel\":\"\",\"totalMemoryGB\":0,\"totalStorageGB\":0," ++
            "\"productModel\":\"\",\"os\":\"\",\"osVersion\":\"\",\"serialNumber\":\"\"," ++
            "\"manufacturer\":\"\"\x7d") := by
      rw [hrec]
      show jsonMarshal true noOtherNumber _ = _
      unfold jsonMarshal
      rw [systemInfoMembers_eq]
      simp only [renderObject, renderMembers, m1, m2, m3, m4, m5, m6, m7, m8]
      rfl
    rw [main_posts, hdoc]
  · obtain ⟨doc, h1, _, _, h4, h5, h6, _⟩ :=
      json_document_has_all_keys failingEnv true noOtherNumber
    exact ⟨doc, h1, h4, h5 (by decide), h6 (by decide)⟩

/-- Witness for C8: a text decoding to two records yields the first model name. -/
theorem extractCPUModelName_first_record_witness :
    extractCPUModelName twoCpuEnv "cpus" = ("Intel(R) Core(TM) i5", none) :=
  (extractCPUModelName_first_record twoCpuEnv "cpus").1 _ _ rfl

/-- Witness for C4: a CPU provider that reports no record, and a failing
memory provider. -/
theorem fact_extractors_fail_to_zero_witness :
    ((retrieveCPUInfo noCpuEnv).val = "" ∧
        (retrieveCPUInfo noCpuEnv).err = some "no CPU information found") ∧
      ((retrieveMemoryInfo failingEnv).val = 0 ∧
        (retrieveMemoryInfo failingEnv).err = some "memory unavailable") :=
  ⟨(fact_extractors_fail_to_zero noCpuEnv).1.2.2.2 () "[]" rfl rfl rfl,
    (fact_extractors_fail_to_zero failingEnv).2.1.1 _ rfl⟩

/-- Witness for C3: a two-line output, and a command that cannot be run. -/
theorem command_extractors_second_line_witness :
    ((retrieveSerialNumber (commandEnv "SerialNumber\nPF2ABCDE\n")).err = none ∧
        (retrieveSerialNumber (commandEnv "SerialNumber\nPF2ABCDE\n")).val =
          ((stringsSplit "SerialNumber\nPF2ABCDE\n" '\n')[1]?).getD "" ∧
        (retrieveSerialNumber (commandEnv "SerialNumber\nPF2ABCDE\n")).val =
          secondLine "SerialNumber\nPF2ABCDE\n") ∧
      ((retrieveProductModel failingEnv).val = "" ∧
        (retrieveProductModel failingEnv).err =
          some "exec: \"wmic\": executable file not found in $PATH") :=
  ⟨(command_extractors_second_line (commandEnv "SerialNumber\nPF2ABCDE\n")).2.2.1 _ rfl,
    (command_extractors_second_line failingEnv).2.2.2.2.2.1 _ rfl⟩

/-- Witness for C6: a run whose record is serialised posts it once; a run
whose serialisation fails posts nothing. -/
theorem main_sends_iff_marshalled_witness :
    (main reportingEnv).2.filter Event.isPost =
        [.httpPost "http://localhost:8000/api/v1/asset/useragent" "application/json"
          (renderObject true noOtherNumber (systemInfoMembers (main reportingEnv).1))] ∧
      (main failingEnv).2.filter Event.isPost = [] :=
  ⟨(main_sends_iff_marshalled reportingEnv).2.1 _ rfl,
    (main_sends_iff_marshalled failingEnv).2.2.1 _ rfl⟩

end ExAM
